import Mathlib

/-!
Verification development for the Job Application Autopilot repository.

Shallow embedding of the components referenced by the specification:
the tailor-token store (`src/tools/tailor_resume.py`), the export tool
(`src/tools/export_resume.py`), the tracker database
(`src/storage/database.py`), the confirmation-gated apply workflow
(`src/agents/apply_agent.py`), the three ATS scoring layers
(`src/ats/formatter_check.py`, `src/ats/keyword_scorer.py`,
`src/ats/integrity_check.py`) and the diff viewer
(`src/agents/diff_viewer.py`).

Modelling conventions:
* wall-clock times (Python `time.time()` floats) are modelled as exact
  rationals; a single call of a function sees one instant `now`;
* Python dicts used as keyed stores are association lists;
* a raised Python exception is `Except.error`;
* human-readable message strings are kept only where a claim refers to
  them; purely decorative formatting (emoji, float formatting) is elided.
-/

namespace JobAutopilot

/-! ## Tailor-token store (`src/tools/tailor_resume.py`)

The module-level dict `_TAILOR_TOKENS : token -> entry with text / expires`
with TTL `_TOKEN_TTL_SECONDS = 1800`.
-/

/-- One entry of `_TAILOR_TOKENS`: the bound tailored text and the absolute
expiry instant. -/
structure TokenEntry where
  text : String
  expires : ℚ
deriving Repr, DecidableEq

/-- The `_TAILOR_TOKENS` dict, as an association list keyed by token. -/
abbrev TokenStore := List (String × TokenEntry)

/-- `_TOKEN_TTL_SECONDS = 1800` (30 minutes). -/
def TOKEN_TTL_SECONDS : ℚ := 1800

/-- `_cleanup_tokens()`: delete every entry whose `expires` is strictly
below `now`. -/
def cleanup_tokens (now : ℚ) (store : TokenStore) : TokenStore :=
  store.filter (fun kv => !(decide (kv.2.expires < now)))

/-- `dict.get`-style lookup used to model `dict.pop(token, None)`'s
returned value. -/
def lookupToken (store : TokenStore) (token : String) : Option TokenEntry :=
  (store.find? (fun kv => kv.1 == token)).map (fun kv => kv.2)

/-- The removal effect of `dict.pop(token, None)`. -/
def removeToken (store : TokenStore) (token : String) : TokenStore :=
  store.filter (fun kv => kv.1 != token)

/-- `validate_tailor_token(token)`: cleanup, pop the entry, and return its
text only when the entry exists and `entry["expires"] > now`.  Returns the
optional text together with the store left behind. -/
def validate_tailor_token (now : ℚ) (token : String) (store : TokenStore) :
    Option String × TokenStore :=
  match lookupToken (cleanup_tokens now store) token with
  | some e =>
      if e.expires > now then
        (some e.text, removeToken (cleanup_tokens now store) token)
      else (none, removeToken (cleanup_tokens now store) token)
  | none => (none, cleanup_tokens now store)

/-- The token-minting step of `tailor_resume` (lines 59–67): on a successful
tailor result, cleanup, then bind a fresh token to the tailored text with
expiry `now + 1800`.  Dict assignment overwrites any entry under the same
key. -/
def mint_tailor_token (now : ℚ) (token text : String) (store : TokenStore) :
    TokenStore :=
  removeToken (cleanup_tokens now store) token ++
    [(token, ⟨text, now + TOKEN_TTL_SECONDS⟩)]

/-! ## Export tool (`src/tools/export_resume.py`) -/

/-- Result of `export_resume`, restricted to what the tool decides before
handing the text to the external `DocExporter`: either the error dict for a
failed token validation, or a successful export of a definite text. -/
inductive ExportResult where
  | error (message : String)
  | ok (exportedText : String)
deriving Repr, DecidableEq

/-- `export_resume(resume_text, ..., tailor_token)`: when a token is
supplied it is validated and consumed, an invalid/expired token yields the
error dict and no export, and on success the validated text replaces the
caller-supplied `resume_text`; when no token is supplied the caller's text
is exported as-is and the token store is never touched. -/
def export_resume (resume_text : String) (tailor_token : Option String)
    (now : ℚ) (store : TokenStore) : ExportResult × TokenStore :=
  match tailor_token with
  | none => (.ok resume_text, store)
  | some tok =>
      match validate_tailor_token now tok store with
      | (none, s') =>
          (.error "Invalid or expired tailor token. Please re-run tailor_resume first.",
           s')
      | (some validated_text, s') => (.ok validated_text, s')

/-! ## Tracker database (`src/storage/database.py`)

SQLite rows become records; `datetime('now')` column defaults become a
monotone sequence counter `next_seq`; `AUTOINCREMENT` ids come from
`next_app_id`.  A raised `ValueError` is `Except.error`.
-/

/-- A dynamically typed SQLite value as bound into our statements. -/
inductive DBValue where
  | s (v : String)
  | i (v : Int)
  | nullv
deriving Repr, DecidableEq

/-- A row of the `applications` table. -/
structure AppRecord where
  id : Nat
  resume_id : Nat
  job_id : Nat
  status : String
  ats_score : Option Int
  ats_report : Option String
  tailored_text : Option String
  cover_letter : Option String
  applied_at : Option String
  platform : Option String
  notes : Option String
  created_at : Nat
  updated_at : Nat
deriving Repr, DecidableEq

/-- A row of the `resumes` table (the fields `ApplyAgent` reads). -/
structure ResumeRow where
  id : Nat
  name : Option String
deriving Repr, DecidableEq

/-- A row of the `jobs` table (the fields `ApplyAgent` reads). -/
structure JobRow where
  id : Nat
  title : Option String
  company : Option String
  platform : Option String
  url : Option String
deriving Repr, DecidableEq

/-- A row of the append-only `action_log` table. -/
structure LogEntry where
  action : String
  details : List (String × DBValue)
  application_id : Option Nat
  confirmed : Bool
deriving Repr, DecidableEq

/-- The tracker database state. -/
structure Database where
  resumes : List ResumeRow
  jobs : List JobRow
  applications : List AppRecord
  action_log : List LogEntry
  next_app_id : Nat
  next_seq : Nat
deriving Repr, DecidableEq

/-- `get_resume`: `SELECT * FROM resumes WHERE id = ?`. -/
def get_resume (db : Database) (resume_id : Nat) : Option ResumeRow :=
  db.resumes.find? (fun r => r.id == resume_id)

/-- `get_job`: `SELECT * FROM jobs WHERE id = ?`. -/
def get_job (db : Database) (job_db_id : Nat) : Option JobRow :=
  db.jobs.find? (fun r => r.id == job_db_id)

/-- The `WHERE` filter of `find_application`: same resume + job pair and
`status != 'cancelled'`. -/
def pairP (resume_id job_id : Nat) (r : AppRecord) : Bool :=
  r.resume_id == resume_id && r.job_id == job_id && r.status != "cancelled"

/-- The rows `find_application`'s query ranges over. -/
def nonCancelledMatches (db : Database) (resume_id job_id : Nat) :
    List AppRecord :=
  db.applications.filter (pairP resume_id job_id)

/-- `ORDER BY created_at DESC LIMIT 1`: the row with the greatest
`created_at`. -/
def pickLatest : List AppRecord → Option AppRecord
  | [] => none
  | r :: rest =>
      match pickLatest rest with
      | none => some r
      | some m => if m.created_at > r.created_at then some m else some r

/-- `find_application(resume_id, job_id)`. -/
def find_application (db : Database) (resume_id job_id : Nat) :
    Option AppRecord :=
  pickLatest (nonCancelledMatches db resume_id job_id)

/-- The row INSERTed by `create_application`: fresh id, `draft` status,
schema defaults for all other columns. -/
def newApp (db : Database) (resume_id job_id : Nat) (ats_score : Option Int)
    (ats_report : Option String) : AppRecord :=
  { id := db.next_app_id, resume_id := resume_id, job_id := job_id,
    status := "draft", ats_score := ats_score, ats_report := ats_report,
    tailored_text := none, cover_letter := none, applied_at := none,
    platform := none, notes := none,
    created_at := db.next_seq, updated_at := db.next_seq }

/-- `create_application`: INSERT a fresh `draft` row, returning
`cursor.lastrowid` and the new state. -/
def create_application (db : Database) (resume_id job_id : Nat)
    (ats_score : Option Int) (ats_report : Option String) : Nat × Database :=
  (db.next_app_id,
   { db with
       applications := db.applications ++
         [newApp db resume_id job_id ats_score ats_report],
       next_app_id := db.next_app_id + 1,
       next_seq := db.next_seq + 1 })

/-- `_APPLICATION_UPDATABLE_COLUMNS`, the frozen update whitelist. -/
def APPLICATION_UPDATABLE_COLUMNS : List String :=
  ["status", "ats_score", "ats_report", "tailored_text",
   "cover_letter", "applied_at", "platform", "notes"]

/-- One `column = ?` SET item.  SQLite columns are dynamically typed; the
workflow only ever binds a value of the column's natural type, and a
mismatched binding is modelled as a no-op. -/
def applySet (r : AppRecord) : String × DBValue → AppRecord
  | ("status", .s v) => { r with status := v }
  | ("ats_score", .i v) => { r with ats_score := some v }
  | ("ats_report", .s v) => { r with ats_report := some v }
  | ("tailored_text", .s v) => { r with tailored_text := some v }
  | ("cover_letter", .s v) => { r with cover_letter := some v }
  | ("applied_at", .s v) => { r with applied_at := some v }
  | ("platform", .s v) => { r with platform := some v }
  | ("notes", .s v) => { r with notes := some v }
  | _ => r

/-- The `ValueError` message of `update_application` (the invalid keys are
interpolated in the source; the actionable allowed-columns list is kept). -/
def invalidColumnsMessage : String :=
  "Invalid update column(s). Allowed: applied_at, ats_report, ats_score, " ++
    "cover_letter, notes, platform, status, tailored_text"

/-- The effect of the UPDATE statement on one row: rows with the given id
get every SET item applied plus the `updated_at` stamp; other rows are
untouched. -/
def updRow (seq : Nat) (app_id : Nat) (kwargs : List (String × DBValue))
    (r : AppRecord) : AppRecord :=
  if r.id == app_id then { kwargs.foldl applySet r with updated_at := seq }
  else r

/-- `update_application(app_id, **kwargs)`: reject any key outside the
frozen whitelist before building SQL (`Except.error` = raised
`ValueError`); otherwise SET the given columns plus `updated_at` on the row
with the given id. -/
def update_application (db : Database) (app_id : Nat)
    (kwargs : List (String × DBValue)) : Except String Database :=
  if kwargs.any (fun kv => !(APPLICATION_UPDATABLE_COLUMNS.contains kv.1)) then
    .error invalidColumnsMessage
  else if kwargs.isEmpty then .ok db
  else
    .ok { db with
      applications := db.applications.map (updRow db.next_seq app_id kwargs),
      next_seq := db.next_seq + 1 }

/-- `get_application`: `SELECT * FROM applications WHERE id = ?`. -/
def get_application (db : Database) (app_id : Nat) : Option AppRecord :=
  db.applications.find? (fun r => r.id == app_id)

/-- `log_action`: append one row to the audit trail. -/
def log_action (db : Database) (action : String)
    (details : List (String × DBValue)) (application_id : Option Nat)
    (confirmed : Bool) : Database :=
  { db with
      action_log := db.action_log ++
        [{ action := action, details := details,
           application_id := application_id, confirmed := confirmed }] }

/-! ## ApplyAgent (`src/agents/apply_agent.py`)

The confirmation-gated submission workflow.  `MIN_ATS_SCORE` is read from
the environment, so it is a parameter `min_ats_score`; `datetime.now()` is
the parameter `now`.  Python truthiness of an optional string is
`pyStrTruthy`.
-/

/-- Python truthiness of an `str | None` value (`None` and `""` are falsy). -/
def pyStrTruthy : Option String → Bool
  | some s => s ≠ ""
  | none => false

/-- `.s` of an `str | None` value. -/
def optStrVal : Option String → DBValue
  | some s => .s s
  | none => .nullv

/-- `.i` of an `int | None` value. -/
def optIntVal : Option Int → DBValue
  | some v => .i v
  | none => .nullv

/-- Result dict of `prepare_application`, by shape. -/
inductive PrepareResult where
  | atsError (ats_score min_required : Int)
  | resumeNotFound (resume_id : Nat)
  | jobNotFound (job_db_id : Nat)
  | duplicateError (app_id : Nat) (status : String) (created_at : Nat)
  | ok (application_id : Nat) (requires_confirmation : Bool)
deriving Repr, DecidableEq

/-- The `updates` dict built by `prepare_application`: truthy tailored
text / cover letter become SET items. -/
def prepareUpdates (tailored_text cover_letter : Option String) :
    List (String × DBValue) :=
  (if pyStrTruthy tailored_text then
    [("tailored_text", .s (tailored_text.getD ""))] else []) ++
  (if pyStrTruthy cover_letter then
    [("cover_letter", .s (cover_letter.getD ""))] else [])

/-- The record-creation tail of `prepare_application` (after both guard
rails): create the draft row, attach the truthy updates via
`update_application` (whose `ValueError` branch is unreachable here —
`getD` keeps the function total), write the audit-log entry, and return
the `requires_confirmation` payload. -/
def prepare_application_create (db : Database) (resume_id job_db_id : Nat)
    (tailored_text cover_letter : Option String) (ats_score : Option Int)
    (ats_report : Option String) (resume : ResumeRow) (job : JobRow) :
    PrepareResult × Database :=
  let created := create_application db resume_id job_db_id ats_score ats_report
  let app_id := created.1
  let updates := prepareUpdates tailored_text cover_letter
  let db2 := if updates.isEmpty then created.2
    else ((update_application created.2 app_id updates).toOption).getD created.2
  let db3 := log_action db2 "prepare_application"
    [("app_id", .i app_id), ("resume_name", optStrVal resume.name),
     ("job_title", optStrVal job.title), ("company", optStrVal job.company),
     ("ats_score", optIntVal ats_score)] (some app_id) false
  (.ok app_id true, db3)

/-- `prepare_application` after guard rail #1: resume and job lookups, the
duplicate-application guard, then record creation. -/
def prepare_application_checked (db : Database) (resume_id job_db_id : Nat)
    (tailored_text cover_letter : Option String) (ats_score : Option Int)
    (ats_report : Option String) : PrepareResult × Database :=
  match get_resume db resume_id with
  | none => (.resumeNotFound resume_id, db)
  | some resume =>
      match get_job db job_db_id with
      | none => (.jobNotFound job_db_id, db)
      | some job =>
          match find_application db resume_id job_db_id with
          | some existing =>
              if existing.status != "cancelled" then
                (.duplicateError existing.id existing.status existing.created_at,
                 db)
              else
                prepare_application_create db resume_id job_db_id tailored_text
                  cover_letter ats_score ats_report resume job
          | none =>
              prepare_application_create db resume_id job_db_id tailored_text
                cover_letter ats_score ats_report resume job

/-- `prepare_application`: guard rail #1 (ATS minimum score, unless
`force`) happens before any record lookup; the rest is
`prepare_application_checked`. -/
def prepare_application (min_ats_score : Int) (db : Database)
    (resume_id job_db_id : Nat) (tailored_text cover_letter : Option String)
    (ats_score : Option Int) (ats_report : Option String) (force : Bool) :
    PrepareResult × Database :=
  match ats_score with
  | some sc =>
      if sc < min_ats_score && !force then (.atsError sc min_ats_score, db)
      else
        prepare_application_checked db resume_id job_db_id tailored_text
          cover_letter ats_score ats_report
  | none =>
      prepare_application_checked db resume_id job_db_id tailored_text
        cover_letter ats_score ats_report

/-- Result dict of `confirm_apply`, by shape.  `stateError` carries the
record's actual state, as the error message does. -/
inductive ConfirmResult where
  | notFound (app_id : Nat)
  | stateError (app_id : Nat) (status : String)
  | ok (application_id : Nat) (applied_at : String)
deriving Repr, DecidableEq

/-- `confirm_apply(app_id)`: only `draft`/`ready` records can be submitted;
on success one timestamp `now` is stamped into both the record's
`applied_at` and the confirmed audit-log entry. -/
def confirm_apply (db : Database) (app_id : Nat) (now : String) :
    ConfirmResult × Database :=
  match get_application db app_id with
  | none => (.notFound app_id, db)
  | some app =>
      if !(app.status == "draft" || app.status == "ready") then
        (.stateError app_id app.status, db)
      else
        let db1 := ((update_application db app_id
          [("status", .s "submitted"), ("applied_at", .s now)]).toOption).getD db
        let db2 := log_action db1 "confirm_apply"
          [("app_id", .i app_id), ("confirmed_at", .s now)] (some app_id) true
        (.ok app_id now, db2)

/-- Result dict of `cancel_application`, by shape. -/
inductive CancelResult where
  | notFound (app_id : Nat)
  | ok (application_id : Nat)
deriving Repr, DecidableEq

/-- `cancel_application(app_id, reason)`: no state guard; sets the status
to `cancelled`, records the optional reason, and writes an unconfirmed
audit-log entry. -/
def cancel_application (db : Database) (app_id : Nat) (reason : String) :
    CancelResult × Database :=
  match get_application db app_id with
  | none => (.notFound app_id, db)
  | some _ =>
      let notes := if reason ≠ "" then "Cancelled: " ++ reason
        else "Cancelled by user"
      let db1 := ((update_application db app_id
        [("status", .s "cancelled"), ("notes", .s notes)]).toOption).getD db
      let db2 := log_action db1 "cancel_application"
        [("app_id", .i app_id), ("reason", .s reason)] (some app_id) false
      (.ok app_id, db2)

/-- One ApplyAgent call, for the reachability relation. -/
inductive AgentOp where
  | prepare (min_ats_score : Int) (resume_id job_db_id : Nat)
      (tailored_text cover_letter : Option String) (ats_score : Option Int)
      (ats_report : Option String) (force : Bool)
  | confirm (app_id : Nat) (now : String)
  | cancel (app_id : Nat) (reason : String)

/-- The database state left behind by one ApplyAgent call. -/
def stepAgent (db : Database) : AgentOp → Database
  | .prepare m rid jid tt cl sc rep f =>
      (prepare_application m db rid jid tt cl sc rep f).2
  | .confirm a now => (confirm_apply db a now).2
  | .cancel a r => (cancel_application db a r).2

/-- Database states reachable through ApplyAgent operations, starting from
any state whose `applications` table is empty (resumes and jobs are
populated by other tools, which never touch `applications`). -/
inductive ReachableDB : Database → Prop where
  | init (resumes : List ResumeRow) (jobs : List JobRow)
      (log : List LogEntry) (napp nseq : Nat) :
      ReachableDB ⟨resumes, jobs, [], log, napp, nseq⟩
  | step (db : Database) (op : AgentOp) :
      ReachableDB db → ReachableDB (stepAgent db op)

/-- Number of non-cancelled applications for one (resume, job) pair. -/
def nonCancelledCount (db : Database) (resume_id job_id : Nat) : Nat :=
  (nonCancelledMatches db resume_id job_id).length

/-- The C3 invariant: at most one non-cancelled application per pair. -/
def AtMostOnePerPair (db : Database) : Prop :=
  ∀ resume_id job_id : Nat, nonCancelledCount db resume_id job_id ≤ 1

/-- Auxiliary well-formedness: application ids are unique and below the
autoincrement counter, and the C3 invariant holds. -/
def AppsWF (db : Database) : Prop :=
  (∀ r ∈ db.applications, r.id < db.next_app_id) ∧
  (db.applications.map (fun r => r.id)).Nodup ∧
  AtMostOnePerPair db

/-- Example database: one resume, one job, empty tables otherwise. -/
def exampleDB0 : Database :=
  ⟨[⟨1, some "Alice"⟩], [⟨1, some "Engineer", some "Acme", none, none⟩],
   [], [], 0, 0⟩

/-- `exampleDB0` after one successful `prepare_application`. -/
def exampleDB1 : Database :=
  (prepare_application 60 exampleDB0 1 1 none none none none false).2

/-- `exampleDB1` after cancelling the prepared application. -/
def exampleDB2 : Database :=
  (cancel_application exampleDB1 0 "").2

/-! ## Text utilities

Kernel-computable models of the Python string operations the ATS layers
use.  `str.lower()` / `\w` are modelled over ASCII (the scorers' keyword
vocabulary); floats are exact rationals.
-/

/-- `str.lower()`. -/
def strLower (s : String) : String := String.mk (s.toList.map Char.toLower)

/-- Does `sub` occur at the head of `l`? -/
def headMatches : List Char → List Char → Bool
  | _, [] => true
  | [], _ :: _ => false
  | a :: as, b :: bs => a == b && headMatches as bs

/-- Does `sub` occur anywhere in `l`?  (Python `sub in s`.) -/
def occursIn (sub : List Char) : List Char → Bool
  | [] => sub.isEmpty
  | c :: rest => headMatches (c :: rest) sub || occursIn sub rest

/-- Python `sub in s` on strings. -/
def strContainsSub (s sub : String) : Bool := occursIn sub.toList s.toList

/-- Python `s.count(sub)`: non-overlapping occurrence count. -/
def countOccs (sub : List Char) : List Char → Nat
  | [] => 0
  | c :: rest =>
      if sub ≠ [] && headMatches (c :: rest) sub then
        1 + countOccs sub (List.drop (sub.length - 1) rest)
      else countOccs sub rest
termination_by l => l.length
decreasing_by
  · simp only [List.length_cons, List.length_drop]
    omega
  · simp

/-- Accumulator worker for `pySplit`. -/
def pySplitAux : List Char → List Char → List String
  | [], acc => if acc.isEmpty then [] else [String.mk acc.reverse]
  | c :: rest, acc =>
      if c.isWhitespace then
        if acc.isEmpty then pySplitAux rest []
        else String.mk acc.reverse :: pySplitAux rest []
      else pySplitAux rest (c :: acc)

/-- Python `str.split()` with no separator: split on whitespace runs,
dropping empty tokens. -/
def pySplit (s : String) : List String := pySplitAux s.toList []

/-! ## A small regex engine

The `re` patterns used by `IntegrityCheck` are built from character
classes, bounded repetitions, optional pieces, alternations and zero-width
word boundaries.  They are modelled in disjunctive normal form — an
alternation of sequences of atoms — which is enough to decide
`findall`-nonemptiness (the only thing the checks use beyond message
text). -/

/-- `\w` over ASCII. -/
def wordChar (c : Char) : Bool := c.isAlpha || c.isDigit || c == '_'

/-- One regex atom: a character class, a greedy class star, or the
zero-width trailing word boundary `\b`. -/
inductive ReAtom where
  | one (p : Char → Bool)
  | star (p : Char → Bool)
  | wordEnd

/-- Backtracking matcher: does some prefix of `s` match the atom
sequence? -/
def matchAtoms : List ReAtom → List Char → Bool
  | [], _ => true
  | .one _ :: _, [] => false
  | .one p :: rest, c :: s => p c && matchAtoms rest s
  | .star p :: rest, s =>
      matchAtoms rest s ||
        (match s with
         | [] => false
         | c :: s' => p c && matchAtoms (.star p :: rest) s')
  | .wordEnd :: rest, s =>
      (match s with
       | [] => true
       | c :: _ => !(wordChar c)) && matchAtoms rest s
termination_by atoms s => (atoms.length, s.length)

/-- An alternation of atom sequences (regex in DNF). -/
abbrev ReAlts := List (List ReAtom)

/-- Concatenation of two regexes (cartesian product of branches). -/
def reCat (as bs : ReAlts) : ReAlts :=
  (as.map (fun a => bs.map (fun b => a ++ b))).flatten

/-- An optional piece `(...)?`. -/
def reOpt (as : ReAlts) : ReAlts := as ++ [[]]

/-- A literal string. -/
def reLit (w : String) : ReAlts :=
  [w.toList.map (fun c => ReAtom.one (fun x => x == c))]

/-- A single character class. -/
def reOne (p : Char → Bool) : ReAlts := [[.one p]]

/-- A greedy class star. -/
def reStar (p : Char → Bool) : ReAlts := [[.star p]]

/-- Top-level alternation. -/
def reAlt (xs : List ReAlts) : ReAlts := xs.flatten

/-- `re.search`-nonemptiness: some position starts a match. -/
def reSearch (alts : ReAlts) : List Char → Bool
  | [] => alts.any (fun a => matchAtoms a [])
  | c :: rest =>
      alts.any (fun a => matchAtoms a (c :: rest)) || reSearch alts rest

/-- `re.search`-nonemptiness for a pattern starting with `\b` followed by a
word character: the position before the match must not be a word
character. -/
def reSearchWB (alts : ReAlts) : Option Char → List Char → Bool
  | _, [] => false
  | prev, c :: rest =>
      ((match prev with
        | none => true
        | some p => !(wordChar p)) &&
        alts.any (fun a => matchAtoms a (c :: rest))) ||
      reSearchWB alts (some c) rest

/-! ## FormatterCheck (`src/src/ats/formatter_check.py`) -/

/-- One `section_headers` entry of the parsed resume. -/
structure HeaderInfo where
  original : String
  canonical : String
  is_standard : Bool
deriving Repr, DecidableEq

/-- One node of the Docling document tree: the `l`/`x` bbox coordinates of
its `prov` items (`none` when the bbox has neither key) and its
children. -/
inductive DocNode where
  | mk (xs : List (Option ℚ)) (children : List DocNode)

mutual

/-- `_collect_items_with_bbox`: all bbox x-coordinates in the tree. -/
def collectItems : DocNode → List (Option ℚ)
  | .mk xs children => xs ++ collectItemsL children

/-- `_collect_items_with_bbox` over a child list. -/
def collectItemsL : List DocNode → List (Option ℚ)
  | [] => []
  | n :: rest => collectItems n ++ collectItemsL rest

end

/-- Insert into a sorted ascending list, dropping duplicates
(`sorted(set(...))`). -/
def insertSorted (x : ℚ) : List ℚ → List ℚ
  | [] => [x]
  | y :: ys =>
      if x < y then x :: y :: ys
      else if x == y then y :: ys
      else y :: insertSorted x ys

/-- `sorted(set(l))`. -/
def sortedDedup (l : List ℚ) : List ℚ := l.foldr insertSorted []

/-- Is some adjacent gap in the (sorted) list above 200? -/
def hasBigGap : List ℚ → Bool
  | x :: y :: rest => (y - x > 200) || hasBigGap (y :: rest)
  | _ => false

/-- `_detect_columns`: at least 4 positioned items and two distinct
x-positions separated by a gap above the fixed horizontal threshold. -/
def detect_columns (body : Option DocNode) : Bool :=
  match body with
  | none => false
  | some node =>
      let items := collectItems node
      if items.length < 4 then false
      else
        let x_positions := sortedDedup (items.filterMap id)
        if x_positions.length ≥ 2 then hasBigGap x_positions else false

/-- The parsed-resume fields `FormatterCheck` reads. -/
structure FormatterInput where
  file_type : String
  section_headers : List HeaderInfo
  metadata_warnings : List String
  raw_document_body : Option DocNode

  raw_text : String

/-- Result of one ATS layer, restricted to the score fields the claims
quantify over. -/
structure LayerResult where
  score : Int
  max_score : Int
deriving Repr, DecidableEq

/-- `PROBLEMATIC_BULLETS`. -/
def PROBLEMATIC_BULLETS : List Char :=
  ['→', '➤', '➜', '►', '★', '✦', '✓', '✔', '⬤', '◆', '◇', '▪', '▸']

/-- `_check_file_type`: `True` when the error issue is emitted (type not in
{pdf, docx}). -/
def check_file_type (file_type : String) : Bool :=
  !(file_type == "pdf" || file_type == "docx")

/-- `_check_section_headers` penalty: +1 per non-standard header that maps
to a known canonical name, capped at 3. -/
def check_section_headers (headers : List HeaderInfo) : Nat :=
  min (headers.countP (fun h => !h.is_standard && h.canonical != "other")) 3

/-- `_check_contact_placement` penalty: +1 per metadata warning mentioning
header/footer, capped at 2. -/
def check_contact_placement (warnings : List String) : Nat :=
  min (warnings.countP (fun w =>
    strContainsSub (strLower w) "header" || strContainsSub (strLower w) "footer")) 2

/-- `_check_bullets` penalty: 1 when any problematic bullet glyph occurs in
the raw text. -/
def check_bullets (raw_text : String) : Nat :=
  if PROBLEMATIC_BULLETS.any (fun c => raw_text.toList.contains c) then 1 else 0

/-- `FormatterCheck.check`: start from 20, hard-block non-PDF/DOCX input,
otherwise subtract the four penalties, clamping at 0. -/
def formatter_check (input : FormatterInput) : LayerResult :=
  if check_file_type input.file_type then ⟨max (20 - 20) 0, 20⟩
  else
    let p1 : Int := check_section_headers input.section_headers
    let p2 : Int := check_contact_placement input.metadata_warnings
    let p3 : Int := if detect_columns input.raw_document_body then 2 else 0
    let p4 : Int := check_bullets input.raw_text
    ⟨max (20 - p1 - p2 - p3 - p4) 0, 20⟩

/-! ## KeywordScorer (`src/src/ats/keyword_scorer.py`) -/

/-- One entry of the `inferred_skills` list: either a dict (whose `skill`
key is read) or a bare value (`str(item)`). -/
inductive InferredItem where
  | dict (skill : String)
  | raw (s : String)
deriving Repr, DecidableEq

/-- One `job_titles` entry of the resume extract. -/
structure JobTitleEntry where
  title : String
  company : String
  start_date : String
  end_date : String
deriving Repr, DecidableEq

/-- The JD-extract fields the scorers read. -/
structure JDExtract where
  required_hard_skills : List String
  preferred_hard_skills : List String
  domain_keywords : List String
  tools_and_frameworks : List String
  acronyms : List (String × String)
  experience_required_years : Option ℚ
  education_required : Option String
deriving Repr, DecidableEq

/-- The resume-extract fields the scorers read. -/
structure ResumeExtract where
  hard_skills : List String
  inferred_skills : List InferredItem
  acronyms_used : List (String × Bool)
  job_titles : List JobTitleEntry
  total_experience_years : ℚ
  education : List String
deriving Repr, DecidableEq

/-- Density thresholds (floats modelled as exact rationals). -/
def KEYWORD_DENSITY_OPTIMAL_MIN : ℚ := 1/100

/-- Upper edge of the optimal density band (3%). -/
def KEYWORD_DENSITY_OPTIMAL_MAX : ℚ := 3/100

/-- Keyword-stuffing threshold (5%). -/
def KEYWORD_DENSITY_STUFFING : ℚ := 5/100

/-- One acronym-check issue (message text elided). -/
structure AcronymIssue where
  short_form : String
  long_form : String
  severity : String
deriving Repr, DecidableEq

/-- `_check_acronyms`: an issue per JD acronym with at least one form
present; severity `pass` iff both short and long form occur in the resume
text. -/
def check_acronyms (jd_acronyms : List (String × String))
    (resume_text : String) : List AcronymIssue :=
  jd_acronyms.filterMap (fun p =>
    let has_short := strContainsSub (strLower resume_text) (strLower p.1)
    let has_long := strContainsSub (strLower resume_text) (strLower p.2)
    if has_short && has_long then some ⟨p.1, p.2, "pass"⟩
    else if has_short && !has_long then some ⟨p.1, p.2, "warning"⟩
    else if has_long && !has_short then some ⟨p.1, p.2, "warning"⟩
    else none)

/-- One keyword-density stuffing warning (message text elided; the keyword
and its occurrence count are kept). -/
structure DensityIssue where
  keyword : String
  count : Nat
deriving Repr, DecidableEq

/-- Occurrence count of one keyword: substring count for multi-word
keywords, token count otherwise. -/
def densityCountFor (words : List String) (resume_text : String)
    (keyword : String) : Nat :=
  let keyword_lower := strLower keyword
  if strContainsSub keyword_lower " " then
    countOccs keyword_lower.toList (strLower resume_text).toList
  else words.count keyword_lower

/-- `_check_density`: a stuffing warning per present keyword above the 5%
density threshold, and a +1 bonus per keyword with 2+ occurrences at or
below the 3% threshold (total bonus capped at 5). -/
def check_density (jd_keywords : List String) (resume_text : String) :
    List DensityIssue × Nat :=
  let words := pySplit (strLower resume_text)
  let total_words := words.length
  if total_words = 0 then ([], 0)
  else
    let issues := jd_keywords.filterMap (fun keyword =>
      let count := densityCountFor words resume_text keyword
      if 0 < count ∧ (count : ℚ) / total_words > KEYWORD_DENSITY_STUFFING then
        some ⟨keyword, count⟩
      else none)
    let bonus := (jd_keywords.filter (fun keyword =>
      let count := densityCountFor words resume_text keyword
      decide (0 < count) &&
        !(decide ((count : ℚ) / total_words > KEYWORD_DENSITY_STUFFING)) &&
        decide (2 ≤ count) &&
        decide ((count : ℚ) / total_words ≤ KEYWORD_DENSITY_OPTIMAL_MAX))).length
    (issues, min bonus 5)

/-- `sections.get(key, [])`. -/
def sectionsGet (sections : List (String × List String)) (key : String) :
    List String :=
  ((sections.find? (fun p => p.1 == key)).map (fun p => p.2)).getD []

/-- `_score_placement`: required keywords found in summary (5), experience
(3) or skills (1), over the top 10 required keywords. -/
def score_placement (required_keywords : List String)
    (sections : List (String × List String)) : Nat :=
  let skills_text := strLower (String.intercalate " " (sectionsGet sections "skills"))
  let experience_text :=
    strLower (String.intercalate " " (sectionsGet sections "experience"))
  let summary_text :=
    strLower (String.intercalate " " (sectionsGet sections "summary"))
  (required_keywords.take 10).foldl (fun acc keyword =>
    let kw := strLower keyword
    if strContainsSub summary_text kw then acc + 5
    else if strContainsSub experience_text kw then acc + 3
    else if strContainsSub skills_text kw then acc + 1
    else acc) 0

/-- `round(x, 1)` (tie behaviour idealised as round-half-up). -/
def round1 (x : ℚ) : ℚ := (round (x * 10) : ℤ) / 10

/-- The `KeywordScorer.score` output fields the claims quantify over. -/
structure KeywordScoreResult where
  score : Int
  max_score : Int
  match_percentage : ℚ
  matched_keywords : List String
  inferred_matches : List String
  missing_keywords : List String
  total_jd_keywords : Nat
  total_matched : Nat
deriving Repr, DecidableEq

/-- `KeywordScorer.score`: exact matches (3 pts, cap 30), inferred matches
(2 pts, cap 10), acronym bonus (cap 5), density bonus (cap 5), placement
(cap 10, only when a truthy sections dict is given); total clamped to
60. -/
def keyword_score (jd : JDExtract) (resume : ResumeExtract)
    (resume_text : String)
    (resume_sections : Option (List (String × List String))) :
    KeywordScoreResult :=
  let jd_required := jd.required_hard_skills.map strLower
  let jd_preferred := jd.preferred_hard_skills.map strLower
  let jd_domains := jd.domain_keywords.map strLower
  let jd_tools := jd.tools_and_frameworks.map strLower
  let jd_all := (jd_required ++ jd_preferred ++ jd_domains ++ jd_tools).dedup
  let resume_hard := resume.hard_skills.map strLower
  let resume_inferred := resume.inferred_skills.map (fun item =>
    match item with
    | .dict s => strLower s
    | .raw s => strLower s)
  let matched := jd_all.filter (fun k => resume_hard.contains k)
  let inferred_matches := jd_all.filter (fun k =>
    !(resume_hard.contains k) && resume_inferred.contains k)
  let missing := jd_all.filter (fun k =>
    !(resume_hard.contains k) && !(resume_inferred.contains k))
  let exact_score := min (matched.length * 3) 30
  let inferred_score := min (inferred_matches.length * 2) 10
  let total_jd := jd_all.length
  let total_matched := matched.length + inferred_matches.length
  let match_pct := round1 (if total_jd > 0 then
    (total_matched : ℚ) / total_jd * 100 else 0)
  let acronym_issues := check_acronyms jd.acronyms resume_text
  let acr_bonus :=
    min (acronym_issues.countP (fun i => i.severity == "pass")) 5
  let density_bonus := (check_density jd_all resume_text).2
  let placement := match resume_sections with
    | some sections =>
        if sections.isEmpty then 0
        else min (score_placement jd_required sections) 10
    | none => 0
  let score :=
    min (exact_score + inferred_score + acr_bonus + density_bonus + placement) 60
  { score := score, max_score := 60, match_percentage := match_pct,
    matched_keywords := matched, inferred_matches := inferred_matches,
    missing_keywords := missing, total_jd_keywords := total_jd,
    total_matched := total_matched }

/-! ## IntegrityCheck (`src/src/ats/integrity_check.py`) -/

/-- `[a-zA-Z0-9]`. -/
def alnumChar (c : Char) : Bool := c.isAlpha || c.isDigit

/-- `[\s-]`. -/
def spaceDash (c : Char) : Bool := c.isWhitespace || c == '-'

/-- `EMAIL_REGEX`:
`[a-zA-Z0-9](?:[\w.+-]*[a-zA-Z0-9])?@[a-zA-Z0-9](?:[\w.-]*[a-zA-Z0-9])?\.[a-zA-Z]{2,}`. -/
def EMAIL_REGEX : ReAlts :=
  reCat (reOne alnumChar)
    (reCat (reOpt (reCat
        (reStar (fun c => wordChar c || c == '.' || c == '+' || c == '-'))
        (reOne alnumChar)))
      (reCat (reOne (fun c => c == '@'))
        (reCat (reOne alnumChar)
          (reCat (reOpt (reCat
              (reStar (fun c => wordChar c || c == '.' || c == '-'))
              (reOne alnumChar)))
            (reCat (reOne (fun c => c == '.'))
              (reCat (reOne Char.isAlpha)
                (reCat (reOne Char.isAlpha) (reStar Char.isAlpha))))))))

/-- `(?:\+91[\s-]?)?`. -/
def plus91Opt : ReAlts :=
  reOpt (reCat (reLit "+91") (reOpt (reOne spaceDash)))

/-- A run of exactly `n` digits. -/
def nDigits (n : Nat) : ReAlts :=
  [(List.replicate n (ReAtom.one Char.isDigit))]

/-- `PHONE_REGEX_IN`:
`(?:\+91[\s-]?)?\d{10}|(?:\+91[\s-]?)?\d{5}[\s-]?\d{5}`. -/
def PHONE_REGEX_IN : ReAlts :=
  reAlt
    [reCat plus91Opt (nDigits 10),
     reCat plus91Opt
       (reCat (nDigits 5) (reCat (reOpt (reOne spaceDash)) (nDigits 5)))]

/-- `{lo,hi}` of a class: `lo` mandatory atoms then `hi - lo` optional
ones. -/
def rangeRep (lo hi : Nat) (p : Char → Bool) : ReAlts :=
  (List.range (hi - lo)).foldl
    (fun acc _ => reCat acc (reOpt (reOne p)))
    [(List.replicate lo (ReAtom.one p))]

/-- `PHONE_REGEX_INTL`:
`\+?\d{1,3}[\s-]?\(?\d{1,4}\)?[\s-]?\d{3,4}[\s-]?\d{3,4}`. -/
def PHONE_REGEX_INTL : ReAlts :=
  reCat (reOpt (reLit "+"))
    (reCat (rangeRep 1 3 Char.isDigit)
      (reCat (reOpt (reOne spaceDash))
        (reCat (reOpt (reLit "("))
          (reCat (rangeRep 1 4 Char.isDigit)
            (reCat (reOpt (reLit ")"))
              (reCat (reOpt (reOne spaceDash))
                (reCat (rangeRep 3 4 Char.isDigit)
                  (reCat (reOpt (reOne spaceDash))
                    (rangeRep 3 4 Char.isDigit)))))))))

/-- `(19|20)\d{2}\b` (the tail shared by the date patterns). -/
def yearTail : ReAlts :=
  reCat (reAlt [reLit "19", reLit "20"])
    (reCat (nDigits 2) [[ReAtom.wordEnd]])

/-- `DATE_FUZZY` body (matched on lowercased text for `re.IGNORECASE`):
`\b(Spring|Summer|Autumn|Fall|Winter|Q[1-4])\s+(19|20)\d{2}\b`. -/
def DATE_FUZZY : ReAlts :=
  reCat
    (reAlt [reLit "spring", reLit "summer", reLit "autumn", reLit "fall",
      reLit "winter",
      reCat (reLit "q") (reOne (fun c => '1' ≤ c && c ≤ '4'))])
    (reCat (reCat (reOne Char.isWhitespace) (reStar Char.isWhitespace))
      yearTail)

/-- `DATE_MM_YYYY` body: `\b(0?[1-9]|1[0-2])[/\-](19|20)\d{2}\b`. -/
def DATE_MM_YYYY : ReAlts :=
  reCat
    (reAlt [reCat (reOpt (reLit "0")) (reOne (fun c => '1' ≤ c && c ≤ '9')),
      reCat (reLit "1") (reOne (fun c => '0' ≤ c && c ≤ '2'))])
    (reCat (reOne (fun c => c == '/' || c == '-')) yearTail)

/-- `DATE_MONTH_YYYY` body (lowercased): month name, `\s+`, year. -/
def DATE_MONTH_YYYY : ReAlts :=
  reCat
    (reAlt [reLit "january", reLit "february", reLit "march", reLit "april",
      reLit "may", reLit "june", reLit "july", reLit "august",
      reLit "september", reLit "october", reLit "november", reLit "december",
      reLit "jan", reLit "feb", reLit "mar", reLit "apr", reLit "jun",
      reLit "jul", reLit "aug", reLit "sep", reLit "oct", reLit "nov",
      reLit "dec"])
    (reCat (reCat (reOne Char.isWhitespace) (reStar Char.isWhitespace))
      yearTail)

/-- `DATE_BARE_YEAR` body: `\b(19|20)\d{2}\b`. -/
def DATE_BARE_YEAR : ReAlts := yearTail

/-- `MONTH_MAP`, in Python dict insertion order. -/
def MONTH_MAP : List (String × Nat) :=
  [("january", 1), ("february", 2), ("march", 3), ("april", 4),
   ("may", 5), ("june", 6), ("july", 7), ("august", 8),
   ("september", 9), ("october", 10), ("november", 11), ("december", 12),
   ("jan", 1), ("feb", 2), ("mar", 3), ("apr", 4),
   ("jun", 6), ("jul", 7), ("aug", 8), ("sep", 9),
   ("oct", 10), ("nov", 11), ("dec", 12)]

/-- A `datetime(year, month, 1)` value.  (Python would raise on an
out-of-range month; the model simply carries the parsed numbers — no claim
exercises that path.) -/
structure PyDate where
  year : Nat
  month : Nat
deriving Repr, DecidableEq

/-- Digit characters to a number. -/
def digitsToNat (cs : List Char) : Nat :=
  cs.foldl (fun a c => a * 10 + (c.toNat - 48)) 0

/-- `re.match(r"(\d{1,2})[/\-](\d{4})", s)` with backtracking: try the
two-digit month first, then one digit. -/
def parseMMYYYYat (s : List Char) : Option (Nat × Nat) :=
  match s with
  | d1 :: d2 :: sep :: y1 :: y2 :: y3 :: y4 :: _ =>
      if d1.isDigit && d2.isDigit && (sep == '/' || sep == '-') &&
          y1.isDigit && y2.isDigit && y3.isDigit && y4.isDigit then
        some (digitsToNat [d1, d2], digitsToNat [y1, y2, y3, y4])
      else
        match s with
        | e1 :: sep2 :: z1 :: z2 :: z3 :: z4 :: _ =>
            if e1.isDigit && (sep2 == '/' || sep2 == '-') &&
                z1.isDigit && z2.isDigit && z3.isDigit && z4.isDigit then
              some (digitsToNat [e1], digitsToNat [z1, z2, z3, z4])
            else none
        | _ => none
  | d1 :: sep2 :: z1 :: z2 :: z3 :: z4 :: _ =>
      if d1.isDigit && (sep2 == '/' || sep2 == '-') &&
          z1.isDigit && z2.isDigit && z3.isDigit && z4.isDigit then
        some (digitsToNat [d1], digitsToNat [z1, z2, z3, z4])
      else none
  | _ => none

/-- `re.search(r"(\d{4})", s)`: leftmost run of four digits. -/
def searchYYYY : List Char → Option Nat
  | a :: b :: c :: d :: rest =>
      if a.isDigit && b.isDigit && c.isDigit && d.isDigit then
        some (digitsToNat [a, b, c, d])
      else searchYYYY (b :: c :: d :: rest)
  | _ => none

/-- `re.match(r"(\d{4})", s)`: four digits at the start. -/
def matchBareYear : List Char → Option Nat
  | a :: b :: c :: d :: _ =>
      if a.isDigit && b.isDigit && c.isDigit && d.isDigit then
        some (digitsToNat [a, b, c, d])
      else none
  | _ => none

/-- `_parse_date_str`. -/
def parse_date_str (date_str : String) : Option PyDate :=
  if date_str = "" ||
      (strLower date_str == "present" || strLower date_str == "current" ||
        strLower date_str == "now") then none
  else
    match parseMMYYYYat date_str.toList with
    | some (m, y) => some ⟨y, m⟩
    | none =>
        match MONTH_MAP.find? (fun p =>
          strContainsSub (strLower date_str) p.1) with
        | some p =>
            match searchYYYY date_str.toList with
            | some y => some ⟨y, p.2⟩
            | none =>
                match matchBareYear date_str.toList with
                | some y => some ⟨y, 1⟩
                | none => none
        | none =>
            match matchBareYear date_str.toList with
            | some y => some ⟨y, 1⟩
            | none => none

/-- `_check_contact` penalty: 3 when no email matches, plus 2 when no
phone matches. -/
def check_contact (raw_text : String) : Nat :=
  let cs := raw_text.toList
  let email_penalty := if reSearch EMAIL_REGEX cs then 0 else 3
  let phone_penalty :=
    if reSearch PHONE_REGEX_IN cs || reSearch PHONE_REGEX_INTL cs then 0
    else 2
  email_penalty + phone_penalty

/-- `_check_dates` penalty: 1 when fuzzy seasonal dates occur (standard and
bare-year dates only produce non-penalty issues). -/
def check_dates (raw_text : String) : Nat :=
  if reSearchWB DATE_FUZZY none (strLower raw_text).toList then 1 else 0

/-- `datetime` strict order on (year, month) day-1 dates. -/
def dateLT (a b : PyDate) : Bool :=
  a.year < b.year || (a.year == b.year && a.month < b.month)

/-- Stable insertion for the descending-by-start sort. -/
def insertDesc (x : PyDate × PyDate) :
    List (PyDate × PyDate) → List (PyDate × PyDate)
  | [] => [x]
  | y :: ys => if dateLT y.1 x.1 then x :: y :: ys else y :: insertDesc x ys

/-- `list.sort(key=start, reverse=True)` (stable). -/
def sortByStartDesc (l : List (PyDate × PyDate)) : List (PyDate × PyDate) :=
  l.foldl (fun acc x => insertDesc x acc) []

/-- Count of adjacent pairs whose gap in whole months exceeds the
threshold. -/
def gapFlagCount : List (PyDate × PyDate) → Int → Nat
  | x :: y :: rest, th =>
      (if ((x.1.year : Int) - y.2.year) * 12 +
          ((x.1.month : Int) - y.2.month) > th then 1 else 0) +
        gapFlagCount (y :: rest) th
  | _, _ => 0

/-- `_check_gaps` penalty: 2 per flagged gap, capped at 4.  `now` stands
for `datetime.now()` (used for open-ended jobs). -/
def check_gaps (job_titles : List JobTitleEntry) (threshold_months : Int)
    (now : PyDate) : Nat :=
  if job_titles.length < 2 then 0
  else
    let dated := job_titles.filterMap (fun j =>
      match parse_date_str j.start_date with
      | some start => some (start, (parse_date_str j.end_date).getD now)
      | none => none)
    let sorted := sortByStartDesc dated
    min (2 * gapFlagCount sorted threshold_months) 4

/-- `_check_experience` penalty: 2 when the candidate is more than one year
short of the JD requirement. -/
def check_experience (total_years : ℚ) (required_years : Option ℚ) : Nat :=
  match required_years with
  | none => 0
  | some req =>
      if total_years ≥ req then 0
      else if req - total_years ≤ 1 then 0
      else 2

/-- The degree-ranking table (Python dict insertion order). -/
def degree_levels : List (String × Nat) :=
  [("phd", 4), ("doctorate", 4), ("ph.d", 4),
   ("master", 3), ("mtech", 3), ("mba", 3), ("m.tech", 3), ("m.s", 3),
   ("ms", 3),
   ("bachelor", 2), ("btech", 2), ("b.tech", 2), ("b.s", 2), ("bs", 2),
   ("b.e", 2), ("be", 2),
   ("diploma", 1)]

/-- Highest degree level over the education entries (substring keys). -/
def highestDegreeLevel (education : List String) : Nat :=
  education.foldl (fun best degree =>
    degree_levels.foldl (fun b p =>
      if strContainsSub (strLower degree) p.1 && p.2 > b then p.2 else b)
      best) 0

/-- Required degree level: the first table key occurring in the
requirement. -/
def requiredDegreeLevel (required : String) : Nat :=
  match degree_levels.find? (fun p => strContainsSub (strLower required) p.1) with
  | some p => p.2
  | none => 0

/-- `_check_education` penalty: always 0 (a below-requirement education
only yields an informational note). -/
def check_education (education : List String) (required : Option String) :
    Nat :=
  match required with
  | none => 0
  | some req =>
      if highestDegreeLevel education ≥ requiredDegreeLevel req then 0
      else 0

/-- The parsed-resume fields `IntegrityCheck` reads. -/
structure IntegrityInput where
  raw_text : String
deriving Repr, DecidableEq

/-- `IntegrityCheck.check`: start from 20, subtract the contact, date, gap
and (when a JD extract is supplied) experience/education penalties, clamp
at 0. -/
def integrity_check (resume_data : IntegrityInput) (resume : ResumeExtract)
    (jd : Option JDExtract) (gap_threshold_months : Int) (now : PyDate) :
    LayerResult :=
  let p1 : Int := check_contact resume_data.raw_text
  let p2 : Int := check_dates resume_data.raw_text
  let p3 : Int := check_gaps resume.job_titles gap_threshold_months now
  let p45 : Int := match jd with
    | none => 0
    | some jdx =>
        (check_experience resume.total_experience_years
          jdx.experience_required_years : Int) +
        (check_education resume.education jdx.education_required : Int)
  ⟨max (20 - p1 - p2 - p3 - p45) 0, 20⟩

/-! ## DiffViewer (`src/src/agents/diff_viewer.py`)

`difflib` is an external stdlib collaborator; its matcher is modelled as a
deterministic LCS-based opcode diff.  Display-only output (unified-diff
headers and context lines, human-readable descriptions) is elided; the
`+`/`-` marker lines, from which the statistics are counted, are kept. -/

/-- Worker for `str.splitlines(keepends=True)` (newline model: `\n`). -/
def pySplitlinesAux : List Char → List Char → List String
  | [], acc => if acc.isEmpty then [] else [String.mk acc.reverse]
  | c :: rest, acc =>
      if c = '\n' then String.mk (c :: acc).reverse :: pySplitlinesAux rest []
      else pySplitlinesAux rest (c :: acc)

/-- `str.splitlines(keepends=True)`. -/
def pySplitlines (s : String) : List String := pySplitlinesAux s.toList []

/-- `str.strip()`. -/
def pyStrip (s : String) : String :=
  String.mk
    (((s.toList.dropWhile Char.isWhitespace).reverse.dropWhile
      Char.isWhitespace).reverse)

/-- A longest common subsequence of two line lists (model of
`difflib.SequenceMatcher`'s matching). -/
def lcsLines : List String → List String → List String
  | [], _ => []
  | _ :: _, [] => []
  | x :: as, y :: bs =>
      if x = y then x :: lcsLines as bs
      else
        let l1 := lcsLines as (y :: bs)
        let l2 := lcsLines (x :: as) bs
        if l2.length > l1.length then l2 else l1
termination_by a b => a.length + b.length

/-- `get_opcodes` tags. -/
inductive OpTag where
  | equal
  | replace
  | insert
  | delete
deriving Repr, DecidableEq

/-- One opcode: tag plus half-open index ranges into the original and
modified line lists. -/
structure Opcode where
  tag : OpTag
  i1 : Nat
  i2 : Nat
  j1 : Nat
  j2 : Nat
deriving Repr, DecidableEq

/-- The non-equal opcode for a gap between common lines (empty for an
empty gap). -/
def gapOpcode (i j : Nat) (ga gb : List String) : List Opcode :=
  if ga.isEmpty && gb.isEmpty then []
  else if ga.isEmpty then [⟨.insert, i, i, j, j + gb.length⟩]
  else if gb.isEmpty then [⟨.delete, i, i + ga.length, j, j⟩]
  else [⟨.replace, i, i + ga.length, j, j + gb.length⟩]

/-- Opcode walk along a common subsequence. -/
def opcodeWalk (i j : Nat) :
    List String → List String → List String → List Opcode
  | a, b, [] => gapOpcode i j a b
  | a, b, c :: cs =>
      let pa := a.takeWhile (fun l => l ≠ c)
      let ra := (a.dropWhile (fun l => l ≠ c)).drop 1
      let pb := b.takeWhile (fun l => l ≠ c)
      let rb := (b.dropWhile (fun l => l ≠ c)).drop 1
      gapOpcode i j pa pb ++
        (⟨.equal, i + pa.length, i + pa.length + 1, j + pb.length,
          j + pb.length + 1⟩ ::
          opcodeWalk (i + pa.length + 1) (j + pb.length + 1) ra rb cs)

/-- `SequenceMatcher(None, a, b).get_opcodes()`, modelled via an LCS. -/
def getOpcodes (a b : List String) : List Opcode :=
  opcodeWalk 0 0 a b (lcsLines a b)

/-- `l[i1:i2]`. -/
def pySlice (l : List String) (i1 i2 : Nat) : List String :=
  (l.drop i1).take (i2 - i1)

/-- One structured change record (`_extract_changes`; description text
elided). -/
structure ChangeRecord where
  tag : OpTag
  original_range : Nat × Nat
  modified_range : Nat × Nat
  original_text : Option String
  modified_text : Option String
deriving Repr, DecidableEq

/-- `_extract_changes`: one record per non-equal opcode, with 1-based
ranges and stripped joined text. -/
def extract_changes (original_lines modified_lines : List String)
    (ops : List Opcode) : List ChangeRecord :=
  ops.filterMap (fun op =>
    match op.tag with
    | .equal => none
    | .replace => some ⟨.replace, (op.i1 + 1, op.i2), (op.j1 + 1, op.j2),
        some (pyStrip (String.join (pySlice original_lines op.i1 op.i2))),
        some (pyStrip (String.join (pySlice modified_lines op.j1 op.j2)))⟩
    | .insert => some ⟨.insert, (op.i1 + 1, op.i2), (op.j1 + 1, op.j2),
        none,
        some (pyStrip (String.join (pySlice modified_lines op.j1 op.j2)))⟩
    | .delete => some ⟨.delete, (op.i1 + 1, op.i2), (op.j1 + 1, op.j2),
        some (pyStrip (String.join (pySlice original_lines op.i1 op.i2))),
        none⟩)

/-- The `+`/`-` marker lines of the unified diff (header and context lines
elided). -/
def plusMinusLines (original modified : List String) (ops : List Opcode) :
    List String :=
  (ops.map (fun op =>
    match op.tag with
    | .equal => []
    | .insert => (pySlice modified op.j1 op.j2).map (fun l => "+" ++ l)
    | .delete => (pySlice original op.i1 op.i2).map (fun l => "-" ++ l)
    | .replace =>
        (pySlice original op.i1 op.i2).map (fun l => "-" ++ l) ++
          (pySlice modified op.j1 op.j2).map (fun l => "+" ++ l))).flatten

/-- Diff statistics. -/
structure DiffStatistics where
  additions : Nat
  deletions : Nat
  total_changes : Nat
  original_lines : Nat
  modified_lines : Nat
deriving Repr, DecidableEq

/-- The `DiffViewer.diff` result dict (`diff_text` kept as its marker
lines; `formatted` elided). -/
structure DiffResult where
  diff_lines : List String
  statistics : DiffStatistics
  changes : List ChangeRecord
  has_changes : Bool
deriving Repr, DecidableEq

/-- `DiffViewer.diff`: identity fast path returning the explicit
"no changes" result, otherwise the opcode diff with statistics counted
from the `+`/`-` marker lines. -/
def DiffViewer_diff (original_text modified_text : String)
    (context_lines : Nat) : DiffResult :=
  let original_lines := pySplitlines original_text
  let modified_lines := pySplitlines modified_text
  if original_text = modified_text then
    { diff_lines := [],
      statistics := ⟨0, 0, 0, original_lines.length, modified_lines.length⟩,
      changes := [],
      has_changes := false }
  else
    let _ := context_lines
    let ops := getOpcodes original_lines modified_lines
    let diff_lines := plusMinusLines original_lines modified_lines ops
    let additions := diff_lines.countP (fun l => "+".isPrefixOf l)
    let deletions := diff_lines.countP (fun l => "-".isPrefixOf l)
    { diff_lines := diff_lines,
      statistics := ⟨additions, deletions, additions + deletions,
        original_lines.length, modified_lines.length⟩,
      changes := extract_changes original_lines modified_lines ops,
      has_changes := additions + deletions > 0 }

/-! ## Concrete inputs and computable forms used by the density claims -/

/-- `_check_density` with the rational density tests replaced by their
integer cross-multiplied equivalents (provably equal for nonzero word
counts; kernel-computable on concrete inputs). -/
def check_density_calc (jd_keywords : List String) (resume_text : String) :
    List DensityIssue × Nat :=
  let words := pySplit (strLower resume_text)
  let total_words := words.length
  if total_words = 0 then ([], 0)
  else
    (jd_keywords.filterMap (fun keyword =>
      let count := densityCountFor words resume_text keyword
      if 0 < count ∧ 5 * total_words < 100 * count then some ⟨keyword, count⟩
      else none),
     min ((jd_keywords.filter (fun keyword =>
       let count := densityCountFor words resume_text keyword
       decide (2 ≤ count) && decide (100 * count ≤ 3 * total_words))).length)
       5)

/-- 201 words, two of them `java` (density 2/201 ≈ 0.995%, below the 1%
band edge). -/
def text201 : String :=
  String.intercalate " " (List.replicate 199 "x" ++ ["java", "java"])

/-- 100 words, two of them `java` (density 2%, inside the 1–3% band). -/
def text100 : String :=
  String.intercalate " " (List.replicate 98 "x" ++ ["java", "java"])

/-- An empty JD extract. -/
def jdEmptyExtract : JDExtract := ⟨[], [], [], [], [], none, none⟩

/-- A JD extract with a single required keyword. -/
def jdOneExtract : JDExtract := ⟨["python"], [], [], [], [], none, none⟩

/-- An empty resume extract. -/
def resumeEmptyExtract : ResumeExtract := ⟨[], [], [], [], 0, []⟩

end JobAutopilot

namespace JobAutopilot

/-! ## Lemmas about the token store -/

theorem lookupToken_eq_none_iff (store : TokenStore) (token : String) :
    lookupToken store token = none ↔ ∀ kv ∈ store, kv.1 ≠ token := by
  unfold lookupToken
  simp [List.find?_eq_none]

theorem lookupToken_removeToken (store : TokenStore) (token : String) :
    lookupToken (removeToken store token) token = none := by
  rw [lookupToken_eq_none_iff]
  intro kv hkv
  rw [removeToken, List.mem_filter] at hkv
  simpa using hkv.2

theorem lookupToken_cleanup_of_none (now : ℚ) (store : TokenStore)
    (token : String) (h : lookupToken store token = none) :
    lookupToken (cleanup_tokens now store) token = none := by
  rw [lookupToken_eq_none_iff] at h ⊢
  intro kv hkv
  exact h kv (List.mem_filter.mp hkv).1

/-- After a validation consumes `token`, the resulting store has no entry
for `token` at all. -/
theorem validate_consumes (now : ℚ) (token : String) (store : TokenStore)
    (txt : String) (s' : TokenStore)
    (h : validate_tailor_token now token store = (some txt, s')) :
    lookupToken s' token = none := by
  unfold validate_tailor_token at h
  split at h
  · split at h
    · simp only [Prod.mk.injEq] at h
      rw [← h.2]
      exact lookupToken_removeToken _ _
    · simp at h
  · simp at h

theorem lookupToken_append_of_none (l1 l2 : TokenStore) (token : String)
    (h : lookupToken l1 token = none) :
    lookupToken (l1 ++ l2) token = lookupToken l2 token := by
  induction l1 with
  | nil => rfl
  | cons kv rest ih =>
      by_cases hk : kv.1 == token
      · exfalso
        unfold lookupToken at h
        simp [List.find?, hk] at h
      · unfold lookupToken at h ⊢
        simp only [List.cons_append, List.find?, hk] at h ⊢
        exact ih h

/-- If the store has no entry for the token, validation returns `none` and
leaves (the cleaned-up) store as the state. -/
theorem validate_of_lookup_none (now : ℚ) (token : String) (store : TokenStore)
    (h : lookupToken store token = none) :
    validate_tailor_token now token store = (none, cleanup_tokens now store) := by
  unfold validate_tailor_token
  rw [lookupToken_cleanup_of_none now store token h]

theorem lookupToken_cleanup_removeToken (now' : ℚ) (s : TokenStore)
    (token : String) :
    lookupToken (cleanup_tokens now' (removeToken s token)) token = none :=
  lookupToken_cleanup_of_none _ _ _ (lookupToken_removeToken _ _)

/-- Looking up a freshly minted token before any further mutation finds the
minted entry, which carries the bound text and a `now + 1800` expiry. -/
theorem lookupToken_mint (now : ℚ) (token text : String) (store : TokenStore) :
    lookupToken (mint_tailor_token now token text store) token =
      some ⟨text, now + TOKEN_TTL_SECONDS⟩ := by
  unfold mint_tailor_token
  rw [lookupToken_append_of_none _ _ _ (lookupToken_removeToken _ _)]
  unfold lookupToken
  simp [List.find?]

/-- Cleaning up a minted store at instant `now1`: the minted entry survives
iff it has not yet strictly expired. -/
theorem cleanup_mint (now0 now1 : ℚ) (token text : String)
    (store : TokenStore) :
    cleanup_tokens now1 (mint_tailor_token now0 token text store) =
      cleanup_tokens now1 (removeToken (cleanup_tokens now0 store) token) ++
        (if now0 + TOKEN_TTL_SECONDS < now1 then []
         else [(token, ⟨text, now0 + TOKEN_TTL_SECONDS⟩)]) := by
  unfold mint_tailor_token cleanup_tokens
  rw [List.filter_append]
  by_cases h : now0 + TOKEN_TTL_SECONDS < now1 <;>
    simp [List.filter, h]

/-- **C1.** For every token minted by `tailor_resume`, `validate_tailor_token`
returns the bound tailored text at most once: a validation before the
30-minute expiry returns the bound text; a successful validation removes the
token from the store, so a second call with the same token returns `none`;
and any call made at or after the expiry instant returns `none` rather than
the bound text. -/
theorem tailor_token_single_use_and_expiry
    (store : TokenStore) (token text : String) (now0 now1 now2 : ℚ) :
    (now1 < now0 + TOKEN_TTL_SECONDS →
      (validate_tailor_token now1 token
          (mint_tailor_token now0 token text store)).1 = some text) ∧
    (∀ (s s' : TokenStore) (t : String),
      validate_tailor_token now1 token s = (some t, s') →
      (validate_tailor_token now2 token s').1 = none) ∧
    (now0 + TOKEN_TTL_SECONDS ≤ now2 →
      (validate_tailor_token now2 token
          (mint_tailor_token now0 token text store)).1 = none) := by
  refine ⟨?_, ?_, ?_⟩
  · intro h1
    have hl : lookupToken
        (cleanup_tokens now1 (mint_tailor_token now0 token text store)) token =
        some ⟨text, now0 + TOKEN_TTL_SECONDS⟩ := by
      rw [cleanup_mint, if_neg (lt_asymm h1),
        lookupToken_append_of_none _ _ _ (lookupToken_cleanup_removeToken _ _ _)]
      simp [lookupToken, List.find?]
    unfold validate_tailor_token
    split
    · rename_i e heq
      rw [hl] at heq
      injection heq with heq'
      subst heq'
      rw [if_pos (by exact h1)]
    · rename_i heq
      rw [hl] at heq
      cases heq
  · intro s s' t h
    have hnone := validate_consumes now1 token s t s' h
    rw [validate_of_lookup_none now2 token s' hnone]
  · intro h2
    rcases lt_or_eq_of_le h2 with hlt | heqt
    · have hl : lookupToken
          (cleanup_tokens now2 (mint_tailor_token now0 token text store)) token =
          none := by
        rw [cleanup_mint, if_pos hlt, List.append_nil]
        exact lookupToken_cleanup_removeToken _ _ _
      unfold validate_tailor_token
      rw [hl]
    · have hl : lookupToken
          (cleanup_tokens now2 (mint_tailor_token now0 token text store)) token =
          some ⟨text, now0 + TOKEN_TTL_SECONDS⟩ := by
        rw [cleanup_mint, if_neg (by rw [heqt]; exact lt_irrefl now2),
          lookupToken_append_of_none _ _ _ (lookupToken_cleanup_removeToken _ _ _)]
        simp [lookupToken, List.find?]
      unfold validate_tailor_token
      split
      · rename_i e heq
        rw [hl] at heq
        injection heq with heq'
        subst heq'
        rw [if_neg (by rw [heqt]; exact lt_irrefl now2)]
      · rfl

/-- Concrete witness for C1: token minted at t=0, validated at t=10 yields
the bound text; re-validating the consumed store yields `none`; validating a
fresh mint at t=1800 (the expiry instant) yields `none`. -/
theorem tailor_token_single_use_and_expiry_witness :
    (validate_tailor_token 10 "tok" (mint_tailor_token 0 "tok" "T" [])).1 = some "T" ∧
    (validate_tailor_token 20 "tok" []).1 = none ∧
    (validate_tailor_token 1800 "tok" (mint_tailor_token 0 "tok" "T" [])).1 = none := by
  refine ⟨(tailor_token_single_use_and_expiry [] "tok" "T" 0 10 20).1
      (by norm_num [TOKEN_TTL_SECONDS]),
    (tailor_token_single_use_and_expiry [] "tok" "T" 0 10 20).2.1
      (mint_tailor_token 0 "tok" "T" []) [] "T" ?_,
    (tailor_token_single_use_and_expiry [] "tok" "T" 0 10 1800).2.2
      (by norm_num [TOKEN_TTL_SECONDS])⟩
  norm_num [validate_tailor_token, mint_tailor_token, cleanup_tokens, removeToken,
    lookupToken, TOKEN_TTL_SECONDS, List.filter, List.find?]

/-- **C10.** `export_resume` with `tailor_token = None` performs no token
validation and exports the caller-supplied `resume_text` unchanged (store
untouched); a supplied token that validates replaces the caller's text with
the token-bound text; a supplied-but-invalid or expired token yields the
error result and no export. -/
theorem export_resume_token_gating
    (resume_text : String) (now : ℚ) (store : TokenStore) :
    (export_resume resume_text none now store = (.ok resume_text, store)) ∧
    (∀ (tok t : String) (s' : TokenStore),
      validate_tailor_token now tok store = (some t, s') →
      export_resume resume_text (some tok) now store = (.ok t, s')) ∧
    (∀ (tok : String) (s' : TokenStore),
      validate_tailor_token now tok store = (none, s') →
      export_resume resume_text (some tok) now store =
        (.error "Invalid or expired tailor token. Please re-run tailor_resume first.",
         s')) := by
  refine ⟨rfl, ?_, ?_⟩
  · intro tok t s' h
    simp only [export_resume]
    rw [h]
  · intro tok s' h
    simp only [export_resume]
    rw [h]

/-- Concrete witness for C10: a valid token replaces the caller's text; an
unknown token produces the error result. -/
theorem export_resume_token_gating_witness :
    export_resume "caller" (some "tok") 0 [("tok", ⟨"T", 100⟩)] = (.ok "T", []) ∧
    export_resume "caller" (some "bad") 0 [] =
      (.error "Invalid or expired tailor token. Please re-run tailor_resume first.",
       []) :=
  ⟨(export_resume_token_gating "caller" 0 [("tok", ⟨"T", 100⟩)]).2.1 "tok" "T" []
      (by decide),
   (export_resume_token_gating "caller" 0 []).2.2 "bad" [] (by decide)⟩

/-! ## ApplyAgent logging and the update whitelist -/

/-- **C2** [code bug in `apply_agent.py`]. The module docstring promises
"Logs the action regardless of outcome", but a `prepare_application`
rejected by the duplicate guard (which has already looked the record up via
`find_application`) returns without calling `log_action`, and a
`confirm_apply` rejected for a non-draft/ready state (looked up via
`get_application`) likewise returns without logging.  Evaluated at the
failing input: after one successful prepare, a second prepare of the same
pair is rejected and the action log is unchanged; confirming the cancelled
application is rejected and the action log is unchanged. -/
theorem rejected_transitions_write_no_log :
    (prepare_application 60 exampleDB1 1 1 none none none none false).1 =
      .duplicateError 0 "draft" 0 ∧
    (prepare_application 60 exampleDB1 1 1 none none none none false).2.action_log =
      exampleDB1.action_log ∧
    exampleDB1.action_log.length = 1 ∧
    (confirm_apply exampleDB2 0 "2024-01-01T00:00:00").1 =
      .stateError 0 "cancelled" ∧
    (confirm_apply exampleDB2 0 "2024-01-01T00:00:00").2.action_log =
      exampleDB2.action_log := by
  decide

/-- **C5, counterexample.** At the concrete input `resume_id` (a column
outside the whitelist), `update_application` takes the raising branch
(`Except.error` models the raised `ValueError`), so the claim that an
invalid column is "rejected as an explicit error payload … rather than
raised as an exception" is false: the rejection is an exception. -/
theorem update_application_raises_on_invalid_column :
    update_application exampleDB1 0 [("resume_id", .i 9)] =
      .error invalidColumnsMessage := by
  rfl

/-- **C5, amended.** `update_application` accepts only the fixed whitelist
{status, ats_score, ats_report, tailored_text, cover_letter, applied_at,
platform, notes}; any call containing a key outside the whitelist is
rejected by raising `ValueError` (whose message lists the allowed columns)
before any SQL is built, so no column of any record is modified; calls
using only whitelisted keys succeed. -/
theorem update_application_whitelist (db : Database) (app_id : Nat)
    (kwargs : List (String × DBValue)) :
    ((∃ kv ∈ kwargs, kv.1 ∉ APPLICATION_UPDATABLE_COLUMNS) →
      update_application db app_id kwargs = .error invalidColumnsMessage) ∧
    ((∀ kv ∈ kwargs, kv.1 ∈ APPLICATION_UPDATABLE_COLUMNS) →
      ∃ db', update_application db app_id kwargs = .ok db') := by
  constructor
  · intro h
    unfold update_application
    rw [if_pos]
    obtain ⟨kv, hmem, hnot⟩ := h
    simp only [List.any_eq_true]
    exact ⟨kv, hmem, by simpa using hnot⟩
  · intro h
    unfold update_application
    rw [if_neg]
    · by_cases he : kwargs.isEmpty <;> simp [he]
    · simp only [List.any_eq_true, not_exists]
      intro kv
      rintro ⟨hmem, hbad⟩
      exact absurd (h kv hmem) (by simpa using hbad)

/-- Concrete witness for C5: an out-of-whitelist key raises; a whitelisted
key succeeds. -/
theorem update_application_whitelist_witness :
    update_application exampleDB1 0 [("job_id", .i 9)] =
      .error invalidColumnsMessage ∧
    ∃ db', update_application exampleDB1 0 [("notes", .s "x")] = .ok db' :=
  ⟨(update_application_whitelist exampleDB1 0 [("job_id", .i 9)]).1
      (by decide),
   (update_application_whitelist exampleDB1 0 [("notes", .s "x")]).2
      (by decide)⟩

/-! ## Structural lemmas about `update_application` and `applySet` -/

theorem applySet_keys (r : AppRecord) (kv : String × DBValue) :
    (applySet r kv).id = r.id ∧ (applySet r kv).resume_id = r.resume_id ∧
    (applySet r kv).job_id = r.job_id ∧
    (applySet r kv).created_at = r.created_at := by
  unfold applySet
  split <;> exact ⟨rfl, rfl, rfl, rfl⟩

theorem applySet_status (r : AppRecord) (kv : String × DBValue)
    (h : kv.1 ≠ "status") : (applySet r kv).status = r.status := by
  unfold applySet
  split <;> simp_all

theorem foldl_applySet_keys (kwargs : List (String × DBValue)) (r : AppRecord) :
    (kwargs.foldl applySet r).id = r.id ∧
    (kwargs.foldl applySet r).resume_id = r.resume_id ∧
    (kwargs.foldl applySet r).job_id = r.job_id ∧
    (kwargs.foldl applySet r).created_at = r.created_at := by
  induction kwargs generalizing r with
  | nil => exact ⟨rfl, rfl, rfl, rfl⟩
  | cons kv rest ih =>
      rw [List.foldl_cons]
      obtain ⟨h1, h2, h3, h4⟩ := ih (applySet r kv)
      obtain ⟨g1, g2, g3, g4⟩ := applySet_keys r kv
      exact ⟨h1.trans g1, h2.trans g2, h3.trans g3, h4.trans g4⟩

theorem foldl_applySet_status (kwargs : List (String × DBValue)) (r : AppRecord)
    (h : ∀ kv ∈ kwargs, kv.1 ≠ "status") :
    (kwargs.foldl applySet r).status = r.status := by
  induction kwargs generalizing r with
  | nil => rfl
  | cons kv rest ih =>
      rw [List.foldl_cons]
      rw [ih (applySet r kv) (fun x hx => h x (List.mem_cons_of_mem kv hx))]
      exact applySet_status r kv (h kv (List.mem_cons_self kv rest))

theorem toOption_getD_of_ok {ε α : Type} (e : Except ε α) (b d : α)
    (h : e = .ok b) : e.toOption.getD d = b := by
  subst h; rfl

/-- `update_application` with a nonempty, whitelisted `kwargs` list:
explicit resulting state. -/
theorem update_application_of_whitelisted (db : Database) (app_id : Nat)
    (kwargs : List (String × DBValue))
    (hwl : ∀ kv ∈ kwargs, kv.1 ∈ APPLICATION_UPDATABLE_COLUMNS)
    (hne : kwargs ≠ []) :
    update_application db app_id kwargs = .ok
      { db with
        applications := db.applications.map (updRow db.next_seq app_id kwargs),
        next_seq := db.next_seq + 1 } := by
  unfold update_application
  rw [if_neg, if_neg]
  · simpa [List.isEmpty_iff] using hne
  · simp only [List.any_eq_true, not_exists]
    intro kv
    rintro ⟨hmem, hbad⟩
    simp at hbad
    exact hbad (hwl kv hmem)

theorem get_application_some (db : Database) (app_id : Nat) (app : AppRecord)
    (h : get_application db app_id = some app) :
    app ∈ db.applications ∧ app.id = app_id :=
  ⟨List.mem_of_find?_eq_some h, by simpa using List.find?_some h⟩

/-- `confirm_apply` on an existing record, as one top-level `if`. -/
theorem confirm_apply_eq (db : Database) (app_id : Nat) (now : String)
    (app : AppRecord) (happ : get_application db app_id = some app) :
    confirm_apply db app_id now =
      if !(app.status == "draft" || app.status == "ready") then
        (.stateError app_id app.status, db)
      else
        (.ok app_id now,
          log_action (((update_application db app_id
              [("status", .s "submitted"), ("applied_at", .s now)]).toOption).getD db)
            "confirm_apply" [("app_id", .i app_id), ("confirmed_at", .s now)]
            (some app_id) true) := by
  unfold confirm_apply
  rw [happ]

/-- **C4.** `confirm_apply` succeeds only when the application's status is
`draft` or `ready`: for a record in any other state it returns an error
naming the actual state and leaves the database (hence the record)
unchanged; on success it stamps the single submission timestamp `now` both
into the updated record's `applied_at` (with status set to `submitted`) and
into the confirmed audit-log entry, leaving every other record unchanged. -/
theorem confirm_apply_state_machine (db : Database) (app_id : Nat)
    (now : String) (app : AppRecord)
    (happ : get_application db app_id = some app) :
    (¬(app.status = "draft" ∨ app.status = "ready") →
      confirm_apply db app_id now = (.stateError app_id app.status, db)) ∧
    ((app.status = "draft" ∨ app.status = "ready") →
      (confirm_apply db app_id now).1 = .ok app_id now ∧
      (confirm_apply db app_id now).2.action_log =
        db.action_log ++
          [{ action := "confirm_apply",
             details := [("app_id", .i app_id), ("confirmed_at", .s now)],
             application_id := some app_id, confirmed := true }] ∧
      (∃ r ∈ (confirm_apply db app_id now).2.applications,
        r.id = app_id ∧ r.status = "submitted" ∧ r.applied_at = some now) ∧
      (∀ r ∈ (confirm_apply db app_id now).2.applications,
        r.id ≠ app_id → r ∈ db.applications)) := by
  have hupd := update_application_of_whitelisted db app_id
    [("status", .s "submitted"), ("applied_at", .s now)]
    (by
      intro kv hkv
      simp only [List.mem_cons, List.not_mem_nil, or_false] at hkv
      rcases hkv with rfl | rfl <;> simp [APPLICATION_UPDATABLE_COLUMNS])
    (by exact List.cons_ne_nil _ _)
  constructor
  · intro h
    rw [confirm_apply_eq db app_id now app happ, if_pos]
    push_neg at h
    simp [h.1, h.2]
  · intro h
    rw [confirm_apply_eq db app_id now app happ, if_neg
      (by rcases h with h | h <;> simp [h])]
    rw [toOption_getD_of_ok _ _ db hupd]
    obtain ⟨hmem, hid⟩ := get_application_some db app_id app happ
    refine ⟨rfl, rfl, ?_, ?_⟩
    · refine ⟨_, List.mem_map_of_mem _ hmem, ?_⟩
      unfold updRow
      rw [if_pos (by simpa using hid)]
      refine ⟨?_, ?_, ?_⟩
      · exact ((foldl_applySet_keys _ app).1).trans hid
      · rfl
      · rfl
    · intro r hr hrne
      obtain ⟨x, hx, rfl⟩ := List.mem_map.mp hr
      unfold updRow at hrne ⊢
      by_cases hxid : x.id == app_id
      · exfalso
        apply hrne
        rw [if_pos hxid]
        exact ((foldl_applySet_keys _ x).1).trans (by simpa using hxid)
      · rw [if_neg hxid]
        exact hx

/-- Concrete witness for C4: confirming the cancelled example application
is a state error naming `cancelled`; confirming the draft one succeeds. -/
theorem confirm_apply_state_machine_witness :
    confirm_apply exampleDB2 0 "2024-01-01T00:00:00" =
      (.stateError 0 "cancelled", exampleDB2) ∧
    (confirm_apply exampleDB1 0 "2024-01-01T00:00:00").1 =
      .ok 0 "2024-01-01T00:00:00" := by
  constructor
  · exact (confirm_apply_state_machine exampleDB2 0 "2024-01-01T00:00:00"
      ⟨0, 1, 1, "cancelled", none, none, none, none, none, none,
        some "Cancelled by user", 0, 1⟩ (by decide)).1 (by decide)
  · exact ((confirm_apply_state_machine exampleDB1 0 "2024-01-01T00:00:00"
      ⟨0, 1, 1, "draft", none, none, none, none, none, none, none, 0, 0⟩
      (by decide)).2 (Or.inl rfl)).1

/-! ## Lemmas towards the per-pair uniqueness invariant (C3) -/

theorem updRow_keys (seq app_id : Nat) (kwargs : List (String × DBValue))
    (r : AppRecord) :
    (updRow seq app_id kwargs r).id = r.id ∧
    (updRow seq app_id kwargs r).resume_id = r.resume_id ∧
    (updRow seq app_id kwargs r).job_id = r.job_id ∧
    (updRow seq app_id kwargs r).created_at = r.created_at := by
  unfold updRow
  split
  · obtain ⟨h1, h2, h3, h4⟩ := foldl_applySet_keys kwargs r
    exact ⟨h1, h2, h3, h4⟩
  · exact ⟨rfl, rfl, rfl, rfl⟩

theorem updRow_status_of_ne (seq app_id : Nat)
    (kwargs : List (String × DBValue)) (r : AppRecord)
    (h : ∀ kv ∈ kwargs, kv.1 ≠ "status") :
    (updRow seq app_id kwargs r).status = r.status := by
  unfold updRow
  split
  · exact foldl_applySet_status kwargs r h
  · rfl

theorem pairP_updRow (rid jid seq app_id : Nat)
    (kwargs : List (String × DBValue)) (r : AppRecord)
    (h : ∀ kv ∈ kwargs, kv.1 ≠ "status") :
    pairP rid jid (updRow seq app_id kwargs r) = pairP rid jid r := by
  unfold pairP
  rw [(updRow_keys seq app_id kwargs r).2.1,
    (updRow_keys seq app_id kwargs r).2.2.1,
    updRow_status_of_ne seq app_id kwargs r h]

theorem pickLatest_eq_none_iff (l : List AppRecord) :
    pickLatest l = none ↔ l = [] := by
  cases l with
  | nil => simp [pickLatest]
  | cons r rest =>
      simp only [pickLatest]
      constructor
      · intro h
        split at h
        · cases h
        · split at h <;> cases h
      · intro h
        cases h

theorem pickLatest_mem (l : List AppRecord) (r : AppRecord)
    (h : pickLatest l = some r) : r ∈ l := by
  induction l generalizing r with
  | nil => cases h
  | cons a rest ih =>
      simp only [pickLatest] at h
      split at h
      · injection h with h
        subst h
        exact List.mem_cons_self a rest
      · rename_i m heq
        split at h
        · injection h with h
          subst h
          exact List.mem_cons_of_mem a (ih m heq)
        · injection h with h
          subst h
          exact List.mem_cons_self a rest

theorem pairP_eq_true_iff (rid jid : Nat) (r : AppRecord) :
    pairP rid jid r = true ↔
      r.resume_id = rid ∧ r.job_id = jid ∧ r.status ≠ "cancelled" := by
  unfold pairP
  simp [bne_iff_ne, and_assoc]

theorem find_application_none_iff (db : Database) (rid jid : Nat) :
    find_application db rid jid = none ↔
      nonCancelledMatches db rid jid = [] := by
  unfold find_application
  exact pickLatest_eq_none_iff _

theorem find_application_some (db : Database) (rid jid : Nat) (r : AppRecord)
    (h : find_application db rid jid = some r) :
    r ∈ db.applications ∧ r.resume_id = rid ∧ r.job_id = jid ∧
      r.status ≠ "cancelled" := by
  unfold find_application at h
  have hm := pickLatest_mem _ _ h
  rw [nonCancelledMatches, List.mem_filter] at hm
  exact ⟨hm.1, (pairP_eq_true_iff rid jid r).mp hm.2⟩

theorem map_id_map_updRow (l : List AppRecord) (seq a : Nat)
    (kw : List (String × DBValue)) :
    (l.map (updRow seq a kw)).map (fun r => r.id) = l.map (fun r => r.id) := by
  rw [List.map_map]
  exact List.map_congr_left (fun r _ => (updRow_keys seq a kw r).1)

theorem AppsWF_log_action (db : Database) (a : String)
    (d : List (String × DBValue)) (i : Option Nat) (c : Bool) :
    AppsWF (log_action db a d i c) ↔ AppsWF db := Iff.rfl

theorem nonCancelledCount_eq_countP (db : Database) (rid jid : Nat) :
    nonCancelledCount db rid jid = db.applications.countP (pairP rid jid) := by
  unfold nonCancelledCount nonCancelledMatches
  rw [List.countP_eq_length_filter]

theorem idsNodup_map_updRow (apps : List AppRecord) (n seq a : Nat)
    (kwargs : List (String × DBValue))
    (hids : ∀ r ∈ apps, r.id < n)
    (hnodup : (apps.map (fun r => r.id)).Nodup) :
    (∀ r ∈ apps.map (updRow seq a kwargs), r.id < n) ∧
    ((apps.map (updRow seq a kwargs)).map (fun r => r.id)).Nodup := by
  constructor
  · intro r hr
    obtain ⟨x, hx, rfl⟩ := List.mem_map.mp hr
    rw [(updRow_keys seq a kwargs x).1]
    exact hids x hx
  · rw [map_id_map_updRow]
    exact hnodup

/-- An UPDATE that never touches `status` preserves well-formedness. -/
theorem AppsWF_map_updRow_status_free (db : Database) (seq a nseq : Nat)
    (kwargs : List (String × DBValue))
    (hks : ∀ kv ∈ kwargs, kv.1 ≠ "status") (h : AppsWF db) :
    AppsWF { db with
      applications := db.applications.map (updRow seq a kwargs),
      next_seq := nseq } := by
  obtain ⟨hids, hnodup, hcount⟩ := h
  obtain ⟨h1, h2⟩ := idsNodup_map_updRow db.applications db.next_app_id seq a
    kwargs hids hnodup
  refine ⟨h1, h2, ?_⟩
  intro rid jid
  show nonCancelledCount _ rid jid ≤ 1
  rw [nonCancelledCount_eq_countP]
  show (db.applications.map (updRow seq a kwargs)).countP (pairP rid jid) ≤ 1
  rw [List.countP_map]
  have hcong : db.applications.countP (pairP rid jid ∘ updRow seq a kwargs) =
      db.applications.countP (pairP rid jid) :=
    List.countP_congr (fun r hr => by
      simp only [Function.comp_apply, pairP_updRow rid jid seq a kwargs r hks])
  rw [hcong, ← nonCancelledCount_eq_countP]
  exact hcount rid jid

/-- Creating a draft row for a pair with no live application preserves
well-formedness. -/
theorem AppsWF_after_create (db : Database) (rid jid : Nat) (sc : Option Int)
    (rep : Option String) (h : AppsWF db)
    (hfind : find_application db rid jid = none) :
    AppsWF (create_application db rid jid sc rep).2 := by
  obtain ⟨hids, hnodup, hcount⟩ := h
  have hmatches : nonCancelledMatches db rid jid = [] :=
    (find_application_none_iff db rid jid).mp hfind
  refine ⟨?_, ?_, ?_⟩
  · intro r hr
    show r.id < db.next_app_id + 1
    rcases List.mem_append.mp hr with hr | hr
    · exact Nat.lt_succ_of_lt (hids r hr)
    · simp only [List.mem_singleton] at hr
      subst hr
      exact Nat.lt_succ_self _
  · show ((db.applications ++ [newApp db rid jid sc rep]).map
      (fun r => r.id)).Nodup
    rw [List.map_append, List.nodup_append]
    refine ⟨hnodup, by simp, ?_⟩
    intro x hx
    obtain ⟨r, hr, rfl⟩ := List.mem_map.mp hx
    simp only [List.map_cons, List.map_nil, List.mem_singleton]
    exact fun hcontra => absurd (hcontra ▸ hids r hr) (lt_irrefl _)
  · intro a b
    show ((db.applications ++ [newApp db rid jid sc rep]).filter
      (pairP a b)).length ≤ 1
    rw [List.filter_append, List.length_append]
    by_cases hab : a = rid ∧ b = jid
    · obtain ⟨rfl, rfl⟩ := hab
      have hz : db.applications.filter (pairP a b) = [] := hmatches
      rw [hz]
      simpa using List.length_filter_le (pairP a b) [newApp db a b sc rep]
    · have hz : ([newApp db rid jid sc rep].filter (pairP a b)) = [] := by
        have hfalse : pairP a b (newApp db rid jid sc rep) = false := by
          rw [Bool.eq_false_iff]
          intro hcontra
          obtain ⟨h1, h2, -⟩ := (pairP_eq_true_iff a b _).mp hcontra
          simp only [newApp] at h1 h2
          exact hab ⟨h1.symm, h2.symm⟩
        simp [List.filter, hfalse]
      rw [hz]
      simpa using hcount a b

theorem updRow_confirm_fields (seq app_id : Nat) (now : String)
    (r : AppRecord) (hrid : (r.id == app_id) = true) :
    (updRow seq app_id
      [("status", DBValue.s "submitted"), ("applied_at", DBValue.s now)]
      r).resume_id = r.resume_id ∧
    (updRow seq app_id
      [("status", DBValue.s "submitted"), ("applied_at", DBValue.s now)]
      r).job_id = r.job_id ∧
    (updRow seq app_id
      [("status", DBValue.s "submitted"), ("applied_at", DBValue.s now)]
      r).status = "submitted" := by
  unfold updRow
  rw [if_pos hrid]
  exact ⟨(foldl_applySet_keys _ r).2.1, (foldl_applySet_keys _ r).2.2.1, rfl⟩

/-- The `confirm_apply` UPDATE (status draft|ready → submitted) preserves
well-formedness: the touched row stays non-cancelled, every other row is
untouched, so per-pair counts are unchanged. -/
theorem AppsWF_confirm_update (db : Database) (app_id : Nat) (now : String)
    (app : AppRecord) (happ : get_application db app_id = some app)
    (hst : app.status = "draft" ∨ app.status = "ready") (h : AppsWF db) :
    AppsWF { db with
      applications := db.applications.map
        (updRow db.next_seq app_id
          [("status", .s "submitted"), ("applied_at", .s now)]),
      next_seq := db.next_seq + 1 } := by
  obtain ⟨hids, hnodup, hcount⟩ := h
  obtain ⟨hmem, hid⟩ := get_application_some db app_id app happ
  obtain ⟨h1, h2⟩ := idsNodup_map_updRow db.applications db.next_app_id
    db.next_seq app_id [("status", .s "submitted"), ("applied_at", .s now)]
    hids hnodup
  refine ⟨h1, h2, ?_⟩
  intro rid jid
  show nonCancelledCount _ rid jid ≤ 1
  rw [nonCancelledCount_eq_countP]
  show (db.applications.map (updRow db.next_seq app_id
    [("status", .s "submitted"), ("applied_at", .s now)])).countP
      (pairP rid jid) ≤ 1
  rw [List.countP_map]
  have hcong : db.applications.countP
      (pairP rid jid ∘ updRow db.next_seq app_id
        [("status", .s "submitted"), ("applied_at", .s now)]) =
      db.applications.countP (pairP rid jid) := by
    apply List.countP_congr
    intro r hr
    simp only [Function.comp_apply]
    by_cases hrid : r.id == app_id
    · have hreq : r = app :=
        List.inj_on_of_nodup_map hnodup hr hmem (by rw [hid]; simpa using hrid)
      have hst' : r.status = "draft" ∨ r.status = "ready" := by
        rw [hreq]
        exact hst
      obtain ⟨hres, hjob, hstat⟩ :=
        updRow_confirm_fields db.next_seq app_id now r hrid
      rw [pairP_eq_true_iff, pairP_eq_true_iff, hres, hjob, hstat]
      constructor
      · rintro ⟨x1, x2, -⟩
        exact ⟨x1, x2, by rcases hst' with hs | hs <;> rw [hs] <;> decide⟩
      · rintro ⟨x1, x2, -⟩
        exact ⟨x1, x2, by decide⟩
    · unfold updRow
      rw [if_neg hrid]
  rw [hcong, ← nonCancelledCount_eq_countP]
  exact hcount rid jid

/-- The `cancel_application` UPDATE (status → cancelled) preserves
well-formedness: the touched row can only leave the non-cancelled set. -/
theorem AppsWF_cancel_update (db : Database) (app_id : Nat) (notes : String)
    (h : AppsWF db) :
    AppsWF { db with
      applications := db.applications.map
        (updRow db.next_seq app_id
          [("status", .s "cancelled"), ("notes", .s notes)]),
      next_seq := db.next_seq + 1 } := by
  obtain ⟨hids, hnodup, hcount⟩ := h
  obtain ⟨h1, h2⟩ := idsNodup_map_updRow db.applications db.next_app_id
    db.next_seq app_id [("status", .s "cancelled"), ("notes", .s notes)]
    hids hnodup
  refine ⟨h1, h2, ?_⟩
  intro rid jid
  show nonCancelledCount _ rid jid ≤ 1
  rw [nonCancelledCount_eq_countP]
  show (db.applications.map (updRow db.next_seq app_id
    [("status", .s "cancelled"), ("notes", .s notes)])).countP
      (pairP rid jid) ≤ 1
  rw [List.countP_map]
  have hle : db.applications.countP
      (pairP rid jid ∘ updRow db.next_seq app_id
        [("status", .s "cancelled"), ("notes", .s notes)]) ≤
      db.applications.countP (pairP rid jid) := by
    apply List.countP_mono_left
    intro r hr hp
    simp only [Function.comp_apply] at hp
    unfold updRow at hp
    by_cases hrid : r.id == app_id
    · rw [if_pos hrid] at hp
      obtain ⟨-, -, hcontra⟩ := (pairP_eq_true_iff rid jid _).mp hp
      exact absurd rfl hcontra
    · rwa [if_neg hrid] at hp
  exact le_trans hle (by rw [← nonCancelledCount_eq_countP]; exact hcount rid jid)

theorem prepareUpdates_keys (tt cl : Option String) (kv : String × DBValue)
    (h : kv ∈ prepareUpdates tt cl) :
    kv.1 = "tailored_text" ∨ kv.1 = "cover_letter" := by
  unfold prepareUpdates at h
  rcases List.mem_append.mp h with h | h
  · left
    split at h
    · simp only [List.mem_singleton] at h
      rw [h]
    · cases h
  · right
    split at h
    · simp only [List.mem_singleton] at h
      rw [h]
    · cases h

theorem prepareUpdates_wl (tt cl : Option String) :
    ∀ kv ∈ prepareUpdates tt cl, kv.1 ∈ APPLICATION_UPDATABLE_COLUMNS := by
  intro kv h
  rcases prepareUpdates_keys tt cl kv h with h' | h' <;> rw [h'] <;> decide

theorem prepareUpdates_status_free (tt cl : Option String) :
    ∀ kv ∈ prepareUpdates tt cl, kv.1 ≠ "status" := by
  intro kv h
  rcases prepareUpdates_keys tt cl kv h with h' | h' <;> rw [h'] <;> decide

/-- `prepare_application_create` with the let-bindings resolved. -/
theorem prepare_create_eq (db : Database) (rid jid : Nat)
    (tt cl : Option String) (sc : Option Int) (rep : Option String)
    (resume : ResumeRow) (job : JobRow) :
    prepare_application_create db rid jid tt cl sc rep resume job =
      (.ok db.next_app_id true,
       log_action
         (if (prepareUpdates tt cl).isEmpty then
            (create_application db rid jid sc rep).2
          else
            { (create_application db rid jid sc rep).2 with
              applications :=
                ((create_application db rid jid sc rep).2.applications).map
                  (updRow (create_application db rid jid sc rep).2.next_seq
                    db.next_app_id (prepareUpdates tt cl)),
              next_seq :=
                (create_application db rid jid sc rep).2.next_seq + 1 })
         "prepare_application"
         [("app_id", .i db.next_app_id), ("resume_name", optStrVal resume.name),
          ("job_title", optStrVal job.title), ("company", optStrVal job.company),
          ("ats_score", optIntVal sc)] (some db.next_app_id) false) := by
  simp only [prepare_application_create]
  by_cases h : (prepareUpdates tt cl).isEmpty
  · rw [if_pos h, if_pos h]
    rfl
  · rw [if_neg h, if_neg h,
      toOption_getD_of_ok _ _ _
        (update_application_of_whitelisted
          (create_application db rid jid sc rep).2
          (create_application db rid jid sc rep).1 (prepareUpdates tt cl)
          (prepareUpdates_wl tt cl)
          (by simpa [List.isEmpty_iff] using h))]
    rfl

/-- Every single ApplyAgent call preserves well-formedness, hence the
per-pair uniqueness invariant. -/
theorem stepAgent_preserves_AppsWF (db : Database) (op : AgentOp)
    (h : AppsWF db) : AppsWF (stepAgent db op) := by
  cases op with
  | prepare m rid jid tt cl sc rep f =>
      show AppsWF (prepare_application m db rid jid tt cl sc rep f).2
      have hch : ∀ sco : Option Int,
          AppsWF (prepare_application_checked db rid jid tt cl sco rep).2 := by
        intro sco
        unfold prepare_application_checked
        split
        · exact h
        · split
          · exact h
          · split
            · split
              · exact h
              · rename_i existing hfind hcond
                obtain ⟨-, -, -, hnc⟩ :=
                  find_application_some db rid jid existing hfind
                exact absurd (by simpa using hcond) hnc
            · rename_i hfind
              rw [prepare_create_eq]
              rw [AppsWF_log_action]
              by_cases hup : (prepareUpdates tt cl).isEmpty
              · rw [if_pos hup]
                exact AppsWF_after_create db rid jid sco rep h hfind
              · rw [if_neg hup]
                exact AppsWF_map_updRow_status_free
                  (create_application db rid jid sco rep).2
                  (create_application db rid jid sco rep).2.next_seq
                  db.next_app_id
                  ((create_application db rid jid sco rep).2.next_seq + 1)
                  (prepareUpdates tt cl) (prepareUpdates_status_free tt cl)
                  (AppsWF_after_create db rid jid sco rep h hfind)
      unfold prepare_application
      split
      · split
        · exact h
        · exact hch _
      · exact hch _
  | confirm a now =>
      show AppsWF (confirm_apply db a now).2
      unfold confirm_apply
      split
      · exact h
      · rename_i app happ
        split
        · exact h
        · rename_i hcond
          rw [toOption_getD_of_ok _ _ _
            (update_application_of_whitelisted db a
              [("status", .s "submitted"), ("applied_at", .s now)]
              (by
                intro kv hkv
                simp only [List.mem_cons, List.not_mem_nil, or_false] at hkv
                rcases hkv with rfl | rfl <;>
                  simp [APPLICATION_UPDATABLE_COLUMNS])
              (List.cons_ne_nil _ _))]
          rw [AppsWF_log_action]
          refine AppsWF_confirm_update db a now app happ ?_ h
          exact or_iff_not_imp_left.mpr (by simpa using hcond)
  | cancel a reason =>
      show AppsWF (cancel_application db a reason).2
      unfold cancel_application
      split
      · exact h
      · dsimp only
        rw [toOption_getD_of_ok _ _ _
          (update_application_of_whitelisted db a
            [("status", .s "cancelled"),
             ("notes", .s (if reason ≠ "" then "Cancelled: " ++ reason
               else "Cancelled by user"))]
            (by
              intro kv hkv
              simp only [List.mem_cons, List.not_mem_nil, or_false] at hkv
              rcases hkv with rfl | rfl <;>
                simp [APPLICATION_UPDATABLE_COLUMNS])
            (List.cons_ne_nil _ _))]
        rw [AppsWF_log_action]
        exact AppsWF_cancel_update db a _ h

theorem reachableDB_AppsWF (db : Database) (h : ReachableDB db) : AppsWF db := by
  induction h with
  | init resumes jobs log napp nseq =>
      refine ⟨?_, ?_, ?_⟩
      · intro r hr
        cases hr
      · simp
      · intro rid jid
        show (List.filter (pairP rid jid) []).length ≤ 1
        simp
  | step db op hr ih => exact stepAgent_preserves_AppsWF db op ih

theorem nonCancelledMatches_log_action (db : Database) (a : String)
    (d : List (String × DBValue)) (i : Option Nat) (c : Bool) (rid jid : Nat) :
    nonCancelledMatches (log_action db a d i c) rid jid =
      nonCancelledMatches db rid jid := rfl

/-- A successful `prepare_application` call: the returned id is the fresh
autoincrement id, the resume/job tables are untouched, both lookups had
succeeded, no live application for the pair existed, and afterwards exactly
one live application for the pair exists — a draft carrying the fresh id. -/
theorem prepare_checked_ok (db : Database) (rid jid : Nat)
    (tt cl : Option String) (sco : Option Int) (rep : Option String)
    (app_id : Nat) (db' : Database)
    (h : prepare_application_checked db rid jid tt cl sco rep =
      (.ok app_id true, db')) :
    app_id = db.next_app_id ∧
    db'.resumes = db.resumes ∧
    db'.jobs = db.jobs ∧
    get_resume db rid ≠ none ∧
    get_job db jid ≠ none ∧
    ∃ r' : AppRecord,
      nonCancelledMatches db' rid jid = [r'] ∧
      r'.id = db.next_app_id ∧ r'.status = "draft" ∧
      r'.created_at = db.next_seq := by
  unfold prepare_application_checked at h
  split at h
  · simp at h
  · rename_i resume heqres
    split at h
    · simp at h
    · rename_i job heqjob
      split at h
      · split at h
        · simp at h
        · rename_i existing hfind hcond
          obtain ⟨-, -, -, hnc⟩ :=
            find_application_some db rid jid existing hfind
          exact absurd (by simpa using hcond) hnc
      · rename_i hfind
        rw [prepare_create_eq] at h
        simp only [Prod.mk.injEq, PrepareResult.ok.injEq] at h
        obtain ⟨⟨h1, -⟩, h2⟩ := h
        subst h1
        subst h2
        have hmatchesdb : db.applications.filter (pairP rid jid) = [] :=
          (find_application_none_iff db rid jid).mp hfind
        have hpairnew : pairP rid jid (newApp db rid jid sco rep) = true := by
          rw [pairP_eq_true_iff]
          refine ⟨rfl, rfl, ?_⟩
          show ("draft" : String) ≠ "cancelled"
          decide
        refine ⟨rfl, ?_, ?_, by rw [heqres]; simp, by rw [heqjob]; simp, ?_⟩
        · by_cases hup : (prepareUpdates tt cl).isEmpty
          · rw [if_pos hup]
            rfl
          · rw [if_neg hup]
            rfl
        · by_cases hup : (prepareUpdates tt cl).isEmpty
          · rw [if_pos hup]
            rfl
          · rw [if_neg hup]
            rfl
        · rw [nonCancelledMatches_log_action]
          by_cases hup : (prepareUpdates tt cl).isEmpty
          · rw [if_pos hup]
            refine ⟨newApp db rid jid sco rep, ?_, rfl, rfl, rfl⟩
            show (db.applications ++ [newApp db rid jid sco rep]).filter
              (pairP rid jid) = _
            rw [List.filter_append, hmatchesdb]
            simp [List.filter, hpairnew]
          · rw [if_neg hup]
            refine ⟨updRow (create_application db rid jid sco rep).2.next_seq
              db.next_app_id (prepareUpdates tt cl)
              (newApp db rid jid sco rep), ?_, ?_, ?_, ?_⟩
            · show (((db.applications ++ [newApp db rid jid sco rep]).map
                (updRow (create_application db rid jid sco rep).2.next_seq
                  db.next_app_id (prepareUpdates tt cl)))).filter
                  (pairP rid jid) = _
              rw [List.filter_map]
              have hcong : (db.applications ++ [newApp db rid jid sco rep]).filter
                  (pairP rid jid ∘ updRow
                    (create_application db rid jid sco rep).2.next_seq
                    db.next_app_id (prepareUpdates tt cl)) =
                  (db.applications ++ [newApp db rid jid sco rep]).filter
                    (pairP rid jid) :=
                List.filter_congr (fun r hr => by
                  simp only [Function.comp_apply,
                    pairP_updRow rid jid _ _ _ r
                      (prepareUpdates_status_free tt cl)])
              rw [hcong, List.filter_append, hmatchesdb]
              simp [List.filter, hpairnew]
            · rw [(updRow_keys _ _ _ _).1]
              rfl
            · rw [updRow_status_of_ne _ _ _ _ (prepareUpdates_status_free tt cl)]
              rfl
            · rw [(updRow_keys _ _ _ _).2.2.2]
              rfl

theorem prepare_ok_first_call (m : Int) (db : Database) (rid jid : Nat)
    (tt cl : Option String) (sc : Option Int) (rep : Option String) (f : Bool)
    (app_id : Nat) (db' : Database)
    (h : prepare_application m db rid jid tt cl sc rep f =
      (.ok app_id true, db')) :
    app_id = db.next_app_id ∧
    db'.resumes = db.resumes ∧
    db'.jobs = db.jobs ∧
    get_resume db rid ≠ none ∧
    get_job db jid ≠ none ∧
    ∃ r' : AppRecord,
      nonCancelledMatches db' rid jid = [r'] ∧
      r'.id = db.next_app_id ∧ r'.status = "draft" ∧
      r'.created_at = db.next_seq := by
  unfold prepare_application at h
  split at h
  · split at h
    · simp at h
    · exact prepare_checked_ok db rid jid tt cl _ rep app_id db' h
  · exact prepare_checked_ok db rid jid tt cl _ rep app_id db' h

/-- A `prepare_application_checked` call finding a live draft application
for the pair returns the duplicate error carrying that record's id and
status, leaving the database untouched. -/
theorem prepare_checked_duplicate (db' : Database) (rid jid : Nat)
    (tt' cl' : Option String) (sc' : Option Int) (rep' : Option String)
    (res : ResumeRow) (job : JobRow) (ex : AppRecord)
    (hgr : get_resume db' rid = some res) (hgj : get_job db' jid = some job)
    (hfd : find_application db' rid jid = some ex)
    (hst : ex.status = "draft") :
    prepare_application_checked db' rid jid tt' cl' sc' rep' =
      (.duplicateError ex.id ex.status ex.created_at, db') := by
  unfold prepare_application_checked
  split
  · rename_i heq
    rw [hgr] at heq
    cases heq
  · rename_i res2 heq
    split
    · rename_i heq2
      rw [hgj] at heq2
      cases heq2
    · rename_i job2 heq2
      split
      · rename_i ex2 heq3
        rw [hfd] at heq3
        injection heq3 with heq3
        subst heq3
        split
        · rfl
        · rename_i hcond
          rw [hst] at hcond
          simp at hcond
      · rename_i heq3
        rw [hfd] at heq3
        cases heq3

/-- **C3.** For every database state reachable through ApplyAgent
operations, at most one non-cancelled application exists per
(resume_id, job_id) pair; and calling `prepare_application` twice for the
same pair with no cancellation in between (the second call passing its ATS
gate) returns a duplicate error on the second call, carrying the existing
record's id and `draft` status, and creating no second record (the
database is returned unchanged). -/
theorem apply_agent_per_pair_uniqueness :
    (∀ db : Database, ReachableDB db → AtMostOnePerPair db) ∧
    (∀ (m m' : Int) (db : Database) (rid jid : Nat)
      (tt cl tt' cl' : Option String) (sc sc' : Option Int)
      (rep rep' : Option String) (f f' : Bool) (app_id : Nat) (db' : Database),
      prepare_application m db rid jid tt cl sc rep f =
        (.ok app_id true, db') →
      (∀ v : Int, sc' = some v → v < m' → f' = true) →
      ∃ c : Nat,
        prepare_application m' db' rid jid tt' cl' sc' rep' f' =
          (.duplicateError app_id "draft" c, db')) := by
  constructor
  · exact fun db h => (reachableDB_AppsWF db h).2.2
  · intro m m' db rid jid tt cl tt' cl' sc sc' rep rep' f f' app_id db' h hgate
    obtain ⟨happ, hres, hjobs, hgr0, hgj0, r', hm, hid', hst', hca'⟩ :=
      prepare_ok_first_call m db rid jid tt cl sc rep f app_id db' h
    obtain ⟨res, hre⟩ := Option.ne_none_iff_exists'.mp hgr0
    obtain ⟨job, hjo⟩ := Option.ne_none_iff_exists'.mp hgj0
    have hgr' : get_resume db' rid = some res := by
      unfold get_resume
      rw [hres]
      exact hre
    have hgj' : get_job db' jid = some job := by
      unfold get_job
      rw [hjobs]
      exact hjo
    have hfd : find_application db' rid jid = some r' := by
      unfold find_application
      rw [hm]
      rfl
    have hdup := prepare_checked_duplicate db' rid jid tt' cl' sc' rep'
      res job r' hgr' hgj' hfd hst'
    rw [hid', hst', ← happ] at hdup
    refine ⟨r'.created_at, ?_⟩
    cases sc' with
    | none => exact hdup
    | some v =>
        have hcond : (decide (v < m') && !f') = false := by
          by_cases hv : v < m'
          · rw [hgate v rfl hv]
            simp
          · simp [hv]
        simp only [prepare_application]
        rw [hcond]
        simp only [Bool.false_eq_true, if_false]
        exact hdup

/-- Concrete witness for C3: the example database is reachable, so it
satisfies the invariant; and the concrete second prepare call returns the
duplicate error with the first call's id and `draft` status, leaving the
database unchanged. -/
theorem apply_agent_per_pair_uniqueness_witness :
    AtMostOnePerPair exampleDB1 ∧
    ∃ c : Nat,
      prepare_application 60 exampleDB1 1 1 none none none none false =
        (.duplicateError 0 "draft" c, exampleDB1) := by
  constructor
  · refine apply_agent_per_pair_uniqueness.1 exampleDB1 ?_
    have h0 : ReachableDB exampleDB0 :=
      ReachableDB.init [⟨1, some "Alice"⟩]
        [⟨1, some "Engineer", some "Acme", none, none⟩] [] 0 0
    exact ReachableDB.step exampleDB0 (.prepare 60 1 1 none none none none false) h0
  · exact apply_agent_per_pair_uniqueness.2 60 60 exampleDB0 1 1
      none none none none none none none none false false 0 exampleDB1
      (Prod.ext_iff.mpr ⟨by decide, rfl⟩) (fun v hv => by cases hv)

/-! ## ATS layer score bounds (C6) -/

/-- **C6.** Each ATS layer's result score lies in `[0, max_score]`, with
`max_score` fixed per layer at 20 (FormatterCheck), 60 (KeywordScorer) and
20 (IntegrityCheck): every deduction path clamps at 0 and every bonus path
is capped below the layer maximum. -/
theorem ats_layer_scores_bounded :
    (∀ input : FormatterInput,
      0 ≤ (formatter_check input).score ∧
      (formatter_check input).score ≤ 20 ∧
      (formatter_check input).max_score = 20) ∧
    (∀ (jd : JDExtract) (resume : ResumeExtract) (text : String)
      (sections : Option (List (String × List String))),
      0 ≤ (keyword_score jd resume text sections).score ∧
      (keyword_score jd resume text sections).score ≤ 60 ∧
      (keyword_score jd resume text sections).max_score = 60) ∧
    (∀ (resume_data : IntegrityInput) (resume : ResumeExtract)
      (jd : Option JDExtract) (threshold : Int) (now : PyDate),
      0 ≤ (integrity_check resume_data resume jd threshold now).score ∧
      (integrity_check resume_data resume jd threshold now).score ≤ 20 ∧
      (integrity_check resume_data resume jd threshold now).max_score = 20) := by
  refine ⟨?_, ?_, ?_⟩
  · intro input
    unfold formatter_check
    split
    · exact ⟨by norm_num, by norm_num, rfl⟩
    · refine ⟨le_max_right _ _, ?_, rfl⟩
      dsimp only
      apply max_le _ (by norm_num)
      have h1 : (0 : Int) ≤ (check_section_headers input.section_headers : Int) :=
        Int.natCast_nonneg _
      have h2 : (0 : Int) ≤ (check_contact_placement input.metadata_warnings : Int) :=
        Int.natCast_nonneg _
      have h3 : (0 : Int) ≤
          (if detect_columns input.raw_document_body then (2 : Int) else 0) := by
        split <;> norm_num
      have h4 : (0 : Int) ≤ (check_bullets input.raw_text : Int) :=
        Int.natCast_nonneg _
      omega
  · intro jd resume text sections
    refine ⟨Int.natCast_nonneg _, ?_, rfl⟩
    have h : ∀ n : Nat, ((min n 60 : Nat) : Int) ≤ 60 := fun n => by
      exact_mod_cast Nat.min_le_right n 60
    exact h _
  · intro resume_data resume jd threshold now
    unfold integrity_check
    refine ⟨le_max_right _ _, ?_, rfl⟩
    dsimp only
    apply max_le _ (by norm_num)
    have h1 : (0 : Int) ≤ (check_contact resume_data.raw_text : Int) :=
      Int.natCast_nonneg _
    have h2 : (0 : Int) ≤ (check_dates resume_data.raw_text : Int) :=
      Int.natCast_nonneg _
    have h3 : (0 : Int) ≤
        (check_gaps resume.job_titles threshold now : Int) :=
      Int.natCast_nonneg _
    have h45 : (0 : Int) ≤ (match jd with
      | none => (0 : Int)
      | some jdx =>
          (check_experience resume.total_experience_years
            jdx.experience_required_years : Int) +
          (check_education resume.education jdx.education_required : Int)) := by
      cases jd with
      | none => norm_num
      | some jdx => exact add_nonneg (Int.natCast_nonneg _) (Int.natCast_nonneg _)
    omega

/-! ## Match percentage (C8) -/

theorem round1_bounds (x : ℚ) (h0 : 0 ≤ x) (h1 : x ≤ 100) :
    0 ≤ round1 x ∧ round1 x ≤ 100 := by
  unfold round1
  have hlow : (0 : ℤ) ≤ round (x * 10) := by
    rw [round_eq]
    have h : (0 : ℤ) = ⌊(0 : ℚ) + 1/2⌋ := by norm_num
    rw [h]
    exact Int.floor_le_floor (by linarith)
  have hhigh : round (x * 10) ≤ 1000 := by
    rw [round_eq]
    have h : (1000 : ℤ) = ⌊(1000 : ℚ) + 1/2⌋ := by norm_num
    rw [h]
    exact Int.floor_le_floor (by linarith)
  constructor
  · apply div_nonneg _ (by norm_num)
    exact_mod_cast hlow
  · rw [div_le_iff₀ (by norm_num : (0:ℚ) < 10)]
    calc ((round (x * 10) : ℤ) : ℚ) ≤ 1000 := by exact_mod_cast hhigh
      _ = 100 * 10 := by norm_num

theorem length_filter_add_length_filter_le {α : Type} (l : List α)
    (p q : α → Bool) (hdisj : ∀ x ∈ l, ¬(p x = true ∧ q x = true)) :
    (l.filter p).length + (l.filter q).length ≤ l.length := by
  induction l with
  | nil => simp
  | cons a rest ih =>
      have ih' := ih (fun x hx => hdisj x (List.mem_cons_of_mem a hx))
      have ha := hdisj a (List.mem_cons_self a rest)
      by_cases hp : p a <;> by_cases hq : q a
      · exact absurd ⟨hp, hq⟩ ha
      · simp only [List.filter, hp, hq, List.length_cons]
        omega
      · simp only [List.filter, hp, hq, List.length_cons]
        omega
      · simp only [List.filter, hp, hq, List.length_cons, Bool.false_eq_true,
          if_false]
        omega

/-- **C8.** `match_percentage` always lies in [0, 100]; it is 0 when the
union of all JD keyword categories is empty (no division occurs), and
otherwise equals matched keywords over total distinct JD keywords times
100, rounded to one decimal place. -/
theorem keyword_match_percentage (jd : JDExtract) (resume : ResumeExtract)
    (text : String) (sections : Option (List (String × List String))) :
    0 ≤ (keyword_score jd resume text sections).match_percentage ∧
    (keyword_score jd resume text sections).match_percentage ≤ 100 ∧
    ((keyword_score jd resume text sections).total_jd_keywords = 0 →
      (keyword_score jd resume text sections).match_percentage = 0) ∧
    (0 < (keyword_score jd resume text sections).total_jd_keywords →
      (keyword_score jd resume text sections).match_percentage =
        round1 (((keyword_score jd resume text sections).total_matched : ℚ) /
          (keyword_score jd resume text sections).total_jd_keywords * 100)) := by
  have hmt : (keyword_score jd resume text sections).total_matched ≤
      (keyword_score jd resume text sections).total_jd_keywords := by
    show _ + _ ≤ (List.dedup _).length
    apply length_filter_add_length_filter_le
    intro x hx
    rintro ⟨h1, h2⟩
    simp only [Bool.and_eq_true, Bool.not_eq_true'] at h2
    rw [h2.1] at h1
    cases h1
  have hz : round1 0 = 0 := by
    unfold round1
    norm_num
  have hpct : (keyword_score jd resume text sections).match_percentage =
      round1 (if 0 < (keyword_score jd resume text sections).total_jd_keywords
        then ((keyword_score jd resume text sections).total_matched : ℚ) /
          (keyword_score jd resume text sections).total_jd_keywords * 100
        else 0) := rfl
  by_cases ht : 0 < (keyword_score jd resume text sections).total_jd_keywords
  · have htQ : (0 : ℚ) <
        ((keyword_score jd resume text sections).total_jd_keywords : ℚ) := by
      exact_mod_cast ht
    have hx0 : (0 : ℚ) ≤
        ((keyword_score jd resume text sections).total_matched : ℚ) /
          (keyword_score jd resume text sections).total_jd_keywords * 100 := by
      apply mul_nonneg _ (by norm_num)
      exact div_nonneg (Nat.cast_nonneg _) (Nat.cast_nonneg _)
    have hx1 : ((keyword_score jd resume text sections).total_matched : ℚ) /
        (keyword_score jd resume text sections).total_jd_keywords * 100 ≤ 100 := by
      have hle1 : ((keyword_score jd resume text sections).total_matched : ℚ) /
          (keyword_score jd resume text sections).total_jd_keywords ≤ 1 :=
        (div_le_one htQ).mpr (by exact_mod_cast hmt)
      calc ((keyword_score jd resume text sections).total_matched : ℚ) /
            (keyword_score jd resume text sections).total_jd_keywords * 100 ≤
          1 * 100 := mul_le_mul_of_nonneg_right hle1 (by norm_num)
        _ = 100 := by norm_num
    obtain ⟨hb0, hb1⟩ := round1_bounds _ hx0 hx1
    exact ⟨by rw [hpct, if_pos ht]; exact hb0,
      by rw [hpct, if_pos ht]; exact hb1,
      fun h0 => absurd h0 (by omega),
      fun _ => by rw [hpct, if_pos ht]⟩
  · exact ⟨by rw [hpct, if_neg ht, hz],
      by rw [hpct, if_neg ht, hz]; norm_num,
      fun _ => by rw [hpct, if_neg ht, hz],
      fun hcon => absurd hcon ht⟩

/-- Concrete witness for C8: with no JD keywords the percentage is 0; with
one JD keyword the formula applies. -/
theorem keyword_match_percentage_witness :
    ((keyword_score jdEmptyExtract resumeEmptyExtract "" none).total_jd_keywords
        = 0 ∧
      (keyword_score jdEmptyExtract resumeEmptyExtract "" none).match_percentage
        = 0) ∧
    (0 < (keyword_score jdOneExtract resumeEmptyExtract "" none).total_jd_keywords ∧
      (keyword_score jdOneExtract resumeEmptyExtract "" none).match_percentage =
        round1 (((keyword_score jdOneExtract resumeEmptyExtract "" none).total_matched : ℚ) /
          (keyword_score jdOneExtract resumeEmptyExtract "" none).total_jd_keywords
            * 100)) :=
  ⟨⟨rfl, (keyword_match_percentage jdEmptyExtract resumeEmptyExtract "" none).2.2.1
      rfl⟩,
   ⟨by decide, (keyword_match_percentage jdOneExtract resumeEmptyExtract "" none).2.2.2
      (by decide)⟩⟩

/-! ## Diff identity fast path and determinism (C9) -/

/-- **C9.** `diff(x, x)` takes the identity fast path: it returns
`has_changes = false` and an empty change list (the opcode diff is never
computed — the fast-path branch is taken whenever the two texts are
equal); and `diff` is a pure function, so running it twice on the same
inputs yields identical output. -/
theorem diff_identity_fast_path_and_deterministic :
    (∀ (x : String) (ctx : Nat),
      (DiffViewer_diff x x ctx).has_changes = false ∧
      (DiffViewer_diff x x ctx).changes = [] ∧
      DiffViewer_diff x x ctx =
        { diff_lines := [],
          statistics := ⟨0, 0, 0, (pySplitlines x).length, (pySplitlines x).length⟩,
          changes := [],
          has_changes := false }) ∧
    (∀ (a b : String) (ctx : Nat),
      DiffViewer_diff a b ctx = DiffViewer_diff a b ctx) := by
  constructor
  · intro x ctx
    have h : DiffViewer_diff x x ctx =
        { diff_lines := [],
          statistics := ⟨0, 0, 0, (pySplitlines x).length, (pySplitlines x).length⟩,
          changes := [],
          has_changes := false } := by
      unfold DiffViewer_diff
      rw [if_pos rfl]
    exact ⟨by rw [h], by rw [h], h⟩
  · intro a b ctx
    rfl

/-! ## Keyword density (C7) -/

theorem density_gt_stuffing_iff (c t : Nat) (ht : 0 < t) :
    ((c : ℚ) / t > KEYWORD_DENSITY_STUFFING) ↔ 5 * t < 100 * c := by
  unfold KEYWORD_DENSITY_STUFFING
  rw [gt_iff_lt, div_lt_div_iff₀ (by norm_num) (by exact_mod_cast ht)]
  constructor
  · intro h
    have h' : (5 * t : ℚ) < 100 * c := by linarith
    exact_mod_cast h'
  · intro h
    have h' : (5 * t : ℚ) < 100 * c := by exact_mod_cast h
    linarith

theorem density_le_band_iff (c t : Nat) (ht : 0 < t) :
    ((c : ℚ) / t ≤ KEYWORD_DENSITY_OPTIMAL_MAX) ↔ 100 * c ≤ 3 * t := by
  unfold KEYWORD_DENSITY_OPTIMAL_MAX
  rw [div_le_div_iff₀ (by exact_mod_cast ht) (by norm_num : (0:ℚ) < 100)]
  constructor
  · intro h
    have h' : (100 * c : ℚ) ≤ 3 * t := by linarith
    exact_mod_cast h'
  · intro h
    have h' : (100 * c : ℚ) ≤ 3 * t := by exact_mod_cast h
    linarith

/-- `_check_density` equals its integer-arithmetic form. -/
theorem check_density_eq_calc (jd_keywords : List String) (text : String) :
    check_density jd_keywords text = check_density_calc jd_keywords text := by
  unfold check_density check_density_calc
  dsimp only
  by_cases ht : (pySplit (strLower text)).length = 0
  · rw [if_pos ht, if_pos ht]
  · rw [if_neg ht, if_neg ht]
    have ht' : 0 < (pySplit (strLower text)).length := Nat.pos_of_ne_zero ht
    have hfm : ∀ keyword : String,
        (if 0 < densityCountFor (pySplit (strLower text)) text keyword ∧
            (densityCountFor (pySplit (strLower text)) text keyword : ℚ) /
              (pySplit (strLower text)).length > KEYWORD_DENSITY_STUFFING then
          some (⟨keyword, densityCountFor (pySplit (strLower text)) text keyword⟩ :
            DensityIssue)
        else none) =
        (if 0 < densityCountFor (pySplit (strLower text)) text keyword ∧
            5 * (pySplit (strLower text)).length <
              100 * densityCountFor (pySplit (strLower text)) text keyword then
          some ⟨keyword, densityCountFor (pySplit (strLower text)) text keyword⟩
        else none) := by
      intro keyword
      exact if_congr
        (and_congr_right fun _ => density_gt_stuffing_iff _ _ ht') rfl rfl
    have hfb : ∀ keyword : String,
        (decide (0 < densityCountFor (pySplit (strLower text)) text keyword) &&
          !(decide ((densityCountFor (pySplit (strLower text)) text keyword : ℚ) /
              (pySplit (strLower text)).length > KEYWORD_DENSITY_STUFFING)) &&
          decide (2 ≤ densityCountFor (pySplit (strLower text)) text keyword) &&
          decide ((densityCountFor (pySplit (strLower text)) text keyword : ℚ) /
            (pySplit (strLower text)).length ≤ KEYWORD_DENSITY_OPTIMAL_MAX)) =
        (decide (2 ≤ densityCountFor (pySplit (strLower text)) text keyword) &&
          decide (100 * densityCountFor (pySplit (strLower text)) text keyword ≤
            3 * (pySplit (strLower text)).length)) := by
      intro keyword
      set c := densityCountFor (pySplit (strLower text)) text keyword with hc
      set t := (pySplit (strLower text)).length with htt
      by_cases h2 : 2 ≤ c
      · by_cases h3 : 100 * c ≤ 3 * t
        · have hnstuff : ¬((c : ℚ) / t > KEYWORD_DENSITY_STUFFING) := by
            rw [density_gt_stuffing_iff c t ht']
            omega
          have hband : (c : ℚ) / t ≤ KEYWORD_DENSITY_OPTIMAL_MAX :=
            (density_le_band_iff c t ht').mpr h3
          simp [h2, h3, hnstuff, hband]
          omega
        · have hband : ¬((c : ℚ) / t ≤ KEYWORD_DENSITY_OPTIMAL_MAX) := by
            rw [density_le_band_iff c t ht']
            exact h3
          simp [h2, h3, hband]
      · simp [h2]
    congr 1
    · exact congrArg (fun fn => List.filterMap fn jd_keywords) (funext hfm)
    · exact congrArg (fun n => min n 5)
        (congrArg List.length (List.filter_congr (fun kw _ => hfb kw)))

/-- **C7, amended.** For a JD keyword occurring in the resume text,
`_check_density` emits a stuffing warning exactly when the keyword's
density (occurrence count over total word count) exceeds 5%; and the
total bonus equals the number of JD keywords occurring 2 or more times
with density at most the 3% upper band edge, capped at 5 — the 1% lower
band edge (`KEYWORD_DENSITY_OPTIMAL_MIN`) is never enforced. -/
theorem check_density_rules (jd_keywords : List String) (text : String)
    (k : String) (hmem : k ∈ jd_keywords)
    (ht : 0 < (pySplit (strLower text)).length)
    (hc : 0 < densityCountFor (pySplit (strLower text)) text k) :
    ((∃ c, (⟨k, c⟩ : DensityIssue) ∈ (check_density jd_keywords text).1) ↔
      (densityCountFor (pySplit (strLower text)) text k : ℚ) /
        (pySplit (strLower text)).length > KEYWORD_DENSITY_STUFFING) ∧
    (check_density jd_keywords text).2 =
      min (List.length (jd_keywords.filter (fun kw =>
        decide (2 ≤ densityCountFor (pySplit (strLower text)) text kw) &&
        decide ((densityCountFor (pySplit (strLower text)) text kw : ℚ) /
          (pySplit (strLower text)).length ≤ KEYWORD_DENSITY_OPTIMAL_MAX)))) 5 := by
  rw [check_density_eq_calc]
  unfold check_density_calc
  dsimp only
  rw [if_neg (Nat.pos_iff_ne_zero.mp ht)]
  dsimp only
  constructor
  · constructor
    · rintro ⟨c, hcmem⟩
      rw [List.mem_filterMap] at hcmem
      obtain ⟨kw, hkw, heq⟩ := hcmem
      by_cases hcond : 0 < densityCountFor (pySplit (strLower text)) text kw ∧
          5 * (pySplit (strLower text)).length <
            100 * densityCountFor (pySplit (strLower text)) text kw
      · rw [if_pos hcond] at heq
        injection heq with heq
        injection heq with hk hcnt
        subst hk
        exact (density_gt_stuffing_iff _ _ ht).mpr hcond.2
      · rw [if_neg hcond] at heq
        cases heq
    · intro hdens
      refine ⟨densityCountFor (pySplit (strLower text)) text k, ?_⟩
      rw [List.mem_filterMap]
      refine ⟨k, hmem, ?_⟩
      rw [if_pos ⟨hc, (density_gt_stuffing_iff _ _ ht).mp hdens⟩]
  · refine congrArg (fun n => min n 5) (congrArg List.length
      (List.filter_congr (fun kw _ => ?_)))
    rw [show decide (100 * densityCountFor (pySplit (strLower text)) text kw ≤
        3 * (pySplit (strLower text)).length) =
      decide ((densityCountFor (pySplit (strLower text)) text kw : ℚ) /
        (pySplit (strLower text)).length ≤ KEYWORD_DENSITY_OPTIMAL_MAX) from
      decide_eq_decide.mpr (density_le_band_iff _ _ ht).symm]

set_option maxRecDepth 100000 in
/-- **C7, counterexample.** With `java` occurring twice among 201 words,
the density 2/201 is strictly below the 1% lower edge of the optimal band,
yet the +1 bonus is awarded — the claim's "inside the optimal 1–3% band"
condition does not hold in the code, which never checks the lower edge. -/
theorem check_density_bonus_below_band :
    (check_density ["java"] text201).2 = 1 ∧
    densityCountFor (pySplit (strLower text201)) text201 "java" = 2 ∧
    (pySplit (strLower text201)).length = 201 ∧
    ¬(KEYWORD_DENSITY_OPTIMAL_MIN ≤ (2 : ℚ) / 201) := by
  refine ⟨?_, by decide, by decide, ?_⟩
  · rw [check_density_eq_calc]
    decide
  · unfold KEYWORD_DENSITY_OPTIMAL_MIN
    rw [not_le, div_lt_div_iff₀ (by norm_num) (by norm_num)]
    norm_num

set_option maxRecDepth 100000 in
/-- Concrete witness for C7: `java` twice among 100 words (2% density). -/
theorem check_density_rules_witness :
    ("java" ∈ ["java"] ∧ 0 < (pySplit (strLower text100)).length ∧
      0 < densityCountFor (pySplit (strLower text100)) text100 "java") ∧
    (((∃ c, (⟨"java", c⟩ : DensityIssue) ∈ (check_density ["java"] text100).1) ↔
      (densityCountFor (pySplit (strLower text100)) text100 "java" : ℚ) /
        (pySplit (strLower text100)).length > KEYWORD_DENSITY_STUFFING) ∧
    (check_density ["java"] text100).2 =
      min (List.length (["java"].filter (fun kw =>
        decide (2 ≤ densityCountFor (pySplit (strLower text100)) text100 kw) &&
        decide ((densityCountFor (pySplit (strLower text100)) text100 kw : ℚ) /
          (pySplit (strLower text100)).length ≤ KEYWORD_DENSITY_OPTIMAL_MAX))))
        5) :=
  ⟨⟨by decide, by decide, by decide⟩,
   check_density_rules ["java"] text100 "java" (by decide) (by decide)
     (by decide)⟩

end JobAutopilot
